import Mathlib

/-!
Verification of the common-assembly compiler (lexer, parser, code
generator and linker pass) against its natural-language specification.

The Go source is shallowly embedded: strings are `List Char` where the
code scans byte-by-byte, `uint8` counters are `Nat` taken modulo 256,
Go panics (failed `assert`s, out-of-range indexing, unreachable
branches) are `Option.none`, and Go maps are association lists whose
iteration order — unspecified in Go — is passed in explicitly where the
code ranges over a map.
-/

namespace CommonAsm

/-- Position of a piece of text inside a source file (`helpers.go`,
`textLocation`).  Line and column indexing start at 1. -/
structure textLocation where
  line : Nat
  column : Nat
  deriving DecidableEq

/-- A register in assembly (`AST.go`, `type Register int8`).  A value
between -1 and 15 inclusive; -1 represents no register. -/
abbrev Register := Int

/-- `AST.go`: `const UnkownRegister Register = -1`. -/
def UnknownRegister : Register := -1

/-- `compiler.go` `commonAssemblyRegisterToX86Register`: converts a
common-assembly register index to the x86-64 mnemonic the compiler
emits.  The `default` branch of the Go switch panics, which is
modelled by `none`. -/
def commonAssemblyRegisterToX86Register (registerIndex : Register) : Option String :=
  if registerIndex = 0 then some "%rax"
  else if registerIndex = 1 then some "%rbx"
  else if registerIndex = 2 then some "%rcx"
  else if registerIndex = 3 then some "%rdx"
  else if registerIndex = 4 then some "%rsi"
  else if registerIndex = 5 then some "%rdi"
  else if registerIndex = 6 then some "%r8"
  else if registerIndex = 7 then some "%r9"
  else if registerIndex = 8 then some "%r10"
  else if registerIndex = 9 then some "%r11"
  else if registerIndex = 10 then some "%r12"
  else if registerIndex = 11 then some "%r13"
  else if registerIndex = 12 then some "%r14"
  else if registerIndex = 13 then some "%r15"
  else if registerIndex = 14 then some "%rsp"
  else if registerIndex = 15 then some "%ebp"
  else none

/-- Shorthand for the byte list of a string literal. -/
def str (s : String) : List Char := s.data

/-- An error hit while lexing, parsing or compiling (`lexer.go`
`codeParsingError`).  `msg = none` models Go's nil error. -/
structure codeParsingError where
  msg : Option String
  location : textLocation
  deriving DecidableEq

/-! ## Lexer (`lexer.go`) -/

/-- `lexer.go` `textAndPosition`: a position within a piece of text.
The text is a byte sequence in Go; all inputs of interest are ASCII so
a `List Char` is used. -/
structure textAndPosition where
  text : List Char
  index : Nat
  location : textLocation
  deriving DecidableEq

/-- The byte at the current index (`text.text[text.index]`).  Go would
panic out of range; the index stays in range on every path the claims
exercise, except through the raw `text.index++` of the dotted-name
case, where Go panics and this model reads a NUL byte. -/
def currentByte (t : textAndPosition) : Char :=
  t.text.getD t.index (Char.ofNat 0)

/-- `lexer.go` `moveForward`: returns `true` (and moves nothing) when
the index is already at the last byte, otherwise advances one byte,
updating the line/column. -/
def moveForward (t : textAndPosition) : Bool × textAndPosition :=
  if t.index + 1 ≥ t.text.length then (true, t)
  else if currentByte t = '\n' then
    (false, { t with index := t.index + 1,
                     location := ⟨t.location.line + 1, 1⟩ })
  else
    (false, { t with index := t.index + 1,
                     location := ⟨t.location.line, t.location.column + 1⟩ })

/-- Fuelled body of `lexer.go` `findUntil`.  The Go loop runs `checker`
on the current byte and stops when it returns `true`, or stops
returning `false` when `moveForward` hits the end of the text.  Every
non-final iteration advances the index, so fuel
`text.length - index + 1` is always enough; callers pass
`text.length + 1`. -/
def findUntilAux : Nat → textAndPosition → (Char → Bool) → Bool × textAndPosition
  | 0, t, _ => (false, t)
  | fuel + 1, t, checker =>
    if checker (currentByte t) then (true, t)
    else
      match moveForward t with
      | (true, t₁) => (false, t₁)
      | (false, t₁) => findUntilAux fuel t₁ checker

/-- `lexer.go` `findUntil`. -/
def findUntil (t : textAndPosition) (checker : Char → Bool) : Bool × textAndPosition :=
  findUntilAux (t.text.length + 1) t checker

/-- `lexer.go` `findUntilWithIteratedString`: like `findUntil` but also
returns the slice of text iterated over. -/
def findUntilStr (t : textAndPosition) (checker : Char → Bool) :
    List Char × textAndPosition :=
  let r := findUntil t checker
  (((r.2.text.drop t.index).take (r.2.index - t.index)), r.2)

/-- `lexer.go` `isNotIgnorableWhitespace`. -/
def isNotIgnorableWhitespace (character : Char) : Bool :=
  if character = ' ' ∨ character = '\t' ∨ character = '\r' then false else true

/-- `lexer.go` `isNotNumber`. -/
def isNotNumber (character : Char) : Bool :=
  if ('0' ≤ character ∧ character ≤ '9') ∨ character = '_' then false else true

/-- `lexer.go` `isNotVariableCharacter`. -/
def isNotVariableCharacter (character : Char) : Bool :=
  if ('a' ≤ character ∧ character ≤ 'z') ∨
     ('A' ≤ character ∧ character ≤ 'Z') ∨
     ('0' ≤ character ∧ character ≤ '9') ∨
     character = '_' then false else true

/-- `lexer.go` `keywordType` (the current revision's token kinds). -/
inductive keywordType where
  | Unknown
  | Name
  | RegisterKeyword
  | StringValue
  | CharValue
  | BoolValue
  | PositiveInteger
  | NegativeInteger
  | Decimal
  | IncreaseNesting
  | DecreaseNesting
  | Function
  | FunctionReturn
  | DropVariable
  | Assignment
  | Increment
  | Decrement
  | PlusEquals
  | MinusEquals
  | MultiplyEquals
  | DivideEquals
  | WhileLoop
  | BreakStatement
  | ContinueStatement
  | IfStatement
  | ElifStatement
  | ElseStatement
  | ComparisonSyntax
  | And
  | Or
  | ListSyntax
  | Import
  | Dereference
  | Comment
  | Newline
  deriving DecidableEq

/-- `lexer.go` `keyword`.  The `nesting` field is a `uint8` in Go and
is kept as a `Nat` reduced modulo 256 at every update. -/
structure keyword where
  contents : List Char
  keywordType : keywordType
  nesting : Nat
  location : textLocation
  deriving DecidableEq

/-- `lexer.go` `positiveNumberToKeyword`.  The returned `Bool` is true
if the number is a decimal.  The `assert(eq(text.moveForward(), false))`
cannot fail because the early return already ruled the end of text
out, so it is not modelled as a panic. -/
def positiveNumberToKeyword (t : textAndPosition) : Bool × List Char × textAndPosition :=
  let s₁ := findUntilStr t isNotNumber
  let t₁ := s₁.2
  if t₁.index + 1 ≥ t₁.text.length ∨
     currentByte t₁ ≠ '.' ∨
     t₁.text.getD (t₁.index + 1) (Char.ofNat 0) = '.' then
    (false, s₁.1, t₁)
  else
    let t₂ := (moveForward t₁).2
    let s₂ := findUntilStr t₂ isNotNumber
    (true, s₁.1 ++ '.' :: s₂.1, s₂.2)

/-- The continuation set of the symbol-run scanner inside `lexCode`
(the inner `switch character` of its `findUntil` closure). -/
def isSymbolContinuation (c : Char) : Bool :=
  c = ':' ∨ c = '=' ∨ c = '|' ∨ c = '<' ∨ c = '>' ∨ c = '&' ∨ c = '+' ∨
  c = '-' ∨ c = '*' ∨ c = '/' ∨ c = '.' ∨ c = '%'

/-- The symbol-run scan of `lexCode` (its `findUntil` call with a
closure that appends consecutive symbol bytes, tolerating ignorable
whitespace between them).  The closure's side effect on
`keywordContents` is made explicit as the accumulator `acc`. -/
def scanSymbolRun : Nat → textAndPosition → List Char → List Char × textAndPosition
  | 0, t, acc => (acc, t)
  | fuel + 1, t, acc =>
    let c := currentByte t
    if isNotIgnorableWhitespace c = false then
      match moveForward t with
      | (true, t₁) => (acc, t₁)
      | (false, t₁) => scanSymbolRun fuel t₁ acc
    else if isSymbolContinuation c then
      match moveForward t with
      | (true, t₁) => (acc ++ [c], t₁)
      | (false, t₁) => scanSymbolRun fuel t₁ (acc ++ [c])
    else (acc, t)

/-- The first bytes that start a symbol run in `lexCode`. -/
def isSymbolStart (c : Char) : Bool :=
  c = ',' ∨ c = ':' ∨ c = '=' ∨ c = '|' ∨ c = '<' ∨ c = '>' ∨ c = '&' ∨
  c = '+' ∨ c = '-' ∨ c = '*' ∨ c = '/' ∨ c = '.' ∨ c = '%' ∨ c = '!' ∨
  c = '^'

/-- The identifier-start bytes of `lexCode` (`'_'` and ASCII letters). -/
def isIdentStart (c : Char) : Bool :=
  c = '_' ∨ ('a' ≤ c ∧ c ≤ 'z') ∨ ('A' ≤ c ∧ c ≤ 'Z')

/-- ASCII digit. -/
def isDigitByte (c : Char) : Bool := '0' ≤ c ∧ c ≤ '9'

/-- Keyword classification of an identifier-like word in `lexCode`. -/
def classifyWord (w : List Char) : keywordType :=
  if w = str "fn" then .Function
  else if w = str "drop" then .DropVariable
  else if w = str "if" then .IfStatement
  else if w = str "elif" then .ElifStatement
  else if w = str "else" then .ElseStatement
  else if w = str "while" then .WhileLoop
  else if w = str "break" then .BreakStatement
  else if w = str "continue" then .ContinueStatement
  else if w = str "true" ∨ w = str "false" then .BoolValue
  else if w = str "r0" ∨ w = str "r1" ∨ w = str "r2" ∨ w = str "r3" ∨
          w = str "r4" ∨ w = str "r5" ∨ w = str "r6" ∨ w = str "r7" ∨
          w = str "r8" ∨ w = str "r9" ∨ w = str "r10" ∨ w = str "r11" ∨
          w = str "r12" ∨ w = str "r13" ∨ w = str "r14" ∨ w = str "r15" then
    .RegisterKeyword
  else if w = str "return" then .FunctionReturn
  else if w = str "import" then .Import
  else if w = str "and" then .And
  else if w = str "or" then .Or
  else .Unknown

/-- Result of one iteration of the main loop of `lexCode`: the new
cursor, the new nesting counter, the keyword appended (if any), the
errors appended, and whether the loop returned from inside the
iteration (the `\n`-at-end-of-text early return). -/
structure lexStepResult where
  next : textAndPosition
  nesting : Nat
  emitted : Option keyword
  errs : List codeParsingError
  halt : Bool
  deriving DecidableEq

/-- The identifier case of `lexCode` (keyword classification plus the
dotted-name extension of the `default` branch, whose raw
`text.index++` bypasses `moveForward` and so does not update the
location). -/
def lexIdentCase (t : textAndPosition) (nesting : Nat) (pos : textLocation) :
    lexStepResult :=
  let s := findUntilStr t isNotVariableCharacter
  let w := s.1
  let t₁ := s.2
  let k := classifyWord w
  if k ≠ .Unknown then
    ⟨t₁, nesting, some ⟨w, k, nesting, pos⟩, [], false⟩
  else
    let t₂ := (findUntil t₁ isNotIgnorableWhitespace).2
    if currentByte t₂ = '.' then
      let t₃ := { t₂ with index := t₂.index + 1 }
      let t₄ := (findUntil t₃ isNotIgnorableWhitespace).2
      let s₂ := findUntilStr t₄ isNotNumber
      ⟨s₂.2, nesting, some ⟨w ++ '.' :: s₂.1, .Name, nesting, pos⟩, [], false⟩
    else
      ⟨t₂, nesting, some ⟨w, .Name, nesting, pos⟩, [], false⟩

/-- The symbol-run case of `lexCode`, covering assignment and
comparison operators, `^`, `,`, and the negative-number branch (whose
extra `moveForward` skips a byte after the scan, exactly as the Go
code does). -/
def lexSymbolCase (t : textAndPosition) (nesting : Nat) (pos : textLocation) :
    lexStepResult :=
  let c := currentByte t
  let t₁ := (moveForward t).2
  let s := scanSymbolRun (t₁.text.length + 1) t₁ [c]
  let contents := s.1
  let t₂ := s.2
  if contents = str "=" then
    ⟨t₂, nesting, some ⟨contents, .Assignment, nesting, pos⟩, [], false⟩
  else if contents = str "++" then
    ⟨t₂, nesting, some ⟨contents, .Increment, nesting, pos⟩, [], false⟩
  else if contents = str "--" then
    ⟨t₂, nesting, some ⟨contents, .Decrement, nesting, pos⟩, [], false⟩
  else if contents = str "+=" then
    ⟨t₂, nesting, some ⟨contents, .PlusEquals, nesting, pos⟩, [], false⟩
  else if contents = str "-=" then
    ⟨t₂, nesting, some ⟨contents, .MinusEquals, nesting, pos⟩, [], false⟩
  else if contents = str "*=" then
    ⟨t₂, nesting, some ⟨contents, .MultiplyEquals, nesting, pos⟩, [], false⟩
  else if contents = str "/=" then
    ⟨t₂, nesting, some ⟨contents, .DivideEquals, nesting, pos⟩, [], false⟩
  else if contents = str "==" ∨ contents = str "!=" ∨ contents = str "<=" ∨
          contents = str ">=" ∨ contents = str "<" ∨ contents = str ">" then
    ⟨t₂, nesting, some ⟨contents, .ComparisonSyntax, nesting, pos⟩, [], false⟩
  else if contents = str "^" then
    ⟨t₂, nesting, some ⟨contents, .Dereference, nesting, pos⟩, [], false⟩
  else if contents = str "-" then
    let t₃ := (moveForward t₂).2
    if currentByte t₃ < '0' ∨ '9' < currentByte t₃ then
      ⟨t₃, nesting, none,
       [⟨some "After `-`, expecting a number", pos⟩], false⟩
    else
      let n := positiveNumberToKeyword t₃
      let kt := if n.1 then keywordType.Decimal else keywordType.NegativeInteger
      ⟨n.2.2, nesting, some ⟨'-' :: n.2.1, kt, nesting, pos⟩, [], false⟩
  else if contents = str "," then
    ⟨t₂, nesting, some ⟨contents, .ListSyntax, nesting, pos⟩, [], false⟩
  else
    ⟨t₂, nesting, none,
     [⟨some ("Unknown symbols series `" ++ contents.asString ++
        "`. Known symbol series are (, {, [, ), }, ], #, :=, ::, =, |>, ==, ||, " ++
        "&&, <=, >=, <, >, +, -, *, /, %, ,, ..., .., ."), pos⟩], false⟩

/-- The character-literal case of `lexCode` (`'` dispatch), which may
emit several errors while still producing a `CharValue` keyword. -/
def lexCharCase (t : textAndPosition) (nesting : Nat) (pos : textLocation) :
    lexStepResult :=
  let sq := Char.ofNat 39
  let bs := Char.ofNat 92
  let endErr : textAndPosition → List codeParsingError := fun tp =>
    [⟨some "Unexpected end of text while parsing character value", tp.location⟩]
  let m₁ := moveForward t
  let e₁ := if m₁.1 then endErr m₁.2 else []
  let t₁ := m₁.2
  let afterBackslash :=
    if currentByte t₁ = bs then
      let m₂ := moveForward t₁
      ([bs], (if m₂.1 then endErr m₂.2 else []), m₂.2)
    else ([], [], t₁)
  let pre := afterBackslash.1
  let e₂ := afterBackslash.2.1
  let t₂ := afterBackslash.2.2
  let contents := sq :: pre ++ [currentByte t₂, sq]
  let m₃ := moveForward t₂
  let e₃ := if m₃.1 then endErr m₃.2 else []
  let t₃ := m₃.2
  let e₄ :=
    if currentByte t₃ ≠ sq then
      [⟨some ("Expected `'' to end character value, got `" ++
         (currentByte t₃).toString ++ "`"), t₃.location⟩]
    else []
  let t₄ := (moveForward t₃).2
  ⟨t₄, nesting, some ⟨contents, .CharValue, nesting, pos⟩, e₁ ++ e₂ ++ e₃ ++ e₄, false⟩

/-- One iteration of the main loop of `lexCode`, after the leading
ignorable whitespace has been skipped: the big `switch` on the current
byte. -/
def lexDispatch (t : textAndPosition) (nesting : Nat) : lexStepResult :=
  let c := currentByte t
  let pos := t.location
  if c = '\n' then
    let m := moveForward t
    if m.1 then ⟨m.2, nesting, none, [], true⟩
    else ⟨m.2, nesting, some ⟨['\n'], .Newline, nesting, pos⟩, [], false⟩
  else if c = '#' then
    let s := findUntilStr t (fun ch => if ch = '\n' then true else false)
    ⟨s.2, nesting, some ⟨s.1, .Comment, nesting, pos⟩, [], false⟩
  else if c = '(' ∨ c = '{' ∨ c = '[' then
    ⟨(moveForward t).2, (nesting + 1) % 256,
     some ⟨[c], .IncreaseNesting, nesting, pos⟩, [], false⟩
  else if c = ')' ∨ c = '}' ∨ c = ']' then
    ⟨(moveForward t).2, (nesting + 255) % 256,
     some ⟨[c], .DecreaseNesting, (nesting + 255) % 256, pos⟩, [], false⟩
  else if c = Char.ofNat 39 then
    lexCharCase t nesting pos
  else if c = '"' then
    let t₁ := (moveForward t).2
    let s := findUntilStr t₁ (fun ch => if ch = '"' then true else false)
    ⟨(moveForward s.2).2, nesting,
     some ⟨'"' :: s.1 ++ ['"'], .StringValue, nesting, pos⟩, [], false⟩
  else if isSymbolStart c then
    lexSymbolCase t nesting pos
  else if isIdentStart c then
    lexIdentCase t nesting pos
  else if isDigitByte c then
    let n := positiveNumberToKeyword t
    let kt := if n.1 then keywordType.Decimal else keywordType.PositiveInteger
    ⟨n.2.2, nesting, some ⟨n.2.1, kt, nesting, pos⟩, [], false⟩
  else
    ⟨(moveForward t).2, nesting, none,
     [⟨some ("Unexpected character: `" ++ c.toString ++ "`"), pos⟩], false⟩

/-- Fuelled main loop of `lexCode`.  Every iteration of the Go loop
that is not its last advances the cursor by at least one byte, so fuel
`length + 2` is enough for every input on which the Go loop
terminates; on inputs where the Go loop is stuck for ever at the final
byte, the fuel runs out and the tokens produced so far are returned. -/
def lexLoop : Nat → textAndPosition → Nat → List keyword → List codeParsingError →
    List keyword × List codeParsingError
  | 0, _, _, kws, errs => (kws, errs)
  | fuel + 1, t, nesting, kws, errs =>
    match findUntil t isNotIgnorableWhitespace with
    | (false, _) => (kws, errs)
    | (true, t₀) =>
      let r := lexDispatch t₀ nesting
      let kws₁ := kws ++ r.emitted.toList
      let errs₁ := errs ++ r.errs
      if r.halt then (kws₁, errs₁)
      else lexLoop fuel r.next r.nesting kws₁ errs₁

/-- `lexer.go` `lexCode`. -/
def lexCode (code : List Char) : List keyword × List codeParsingError :=
  lexLoop (code.length + 2) ⟨code, 0, ⟨1, 1⟩⟩ 0 [] []

/-- The concatenation of the contents of a list of keywords. -/
def concatContents (kws : List keyword) : List Char :=
  (kws.map keyword.contents).flatten

/-- Modelled from the spec: the input "with the spaces, tabs, and
carriage returns that are not inside a string or character literal
removed" (the comparison side of C3).  Mode 0 is outside any literal,
mode 1 inside a `"` string, mode 2 inside a `'` character literal. -/
def removeIgnorableWhitespaceAux : Nat → List Char → List Char
  | _, [] => []
  | 0, c :: rest =>
    if c = ' ' ∨ c = '\t' ∨ c = '\r' then removeIgnorableWhitespaceAux 0 rest
    else if c = '"' then c :: removeIgnorableWhitespaceAux 1 rest
    else if c = Char.ofNat 39 then c :: removeIgnorableWhitespaceAux 2 rest
    else c :: removeIgnorableWhitespaceAux 0 rest
  | 1, c :: rest =>
    if c = '"' then c :: removeIgnorableWhitespaceAux 0 rest
    else c :: removeIgnorableWhitespaceAux 1 rest
  | _, c :: rest =>
    if c = Char.ofNat 39 then c :: removeIgnorableWhitespaceAux 0 rest
    else c :: removeIgnorableWhitespaceAux 2 rest

/-- Modelled from the spec (C3's right-hand side). -/
def removeIgnorableWhitespace (input : List Char) : List Char :=
  removeIgnorableWhitespaceAux 0 input

/-! ## Linker pass (`compiler.go`, bottom part) -/

/-- The single-quote byte. -/
def singleQuoteChar : Char := Char.ofNat 39

/-- The backslash byte (the return-placeholder sentinel). -/
def backslashChar : Char := Char.ofNat 92

/-- `compiler.go` `compiledFunction`.  While `jumpLabel` is empty the
assembly may still contain the `\` return sentinel and `/NAME/` call
sentinels. -/
structure compiledFunction where
  references : Nat
  jumpLabel : String
  assembly : List Char
  deriving DecidableEq

/-- `compiler.go` `compilerState`.  The Go `map[string]compiledFunction`
is an association list here; `map` lookup/store order follows first
insertion, and where the Go code *ranges* over the map (whose order Go
leaves unspecified) the iteration order is an explicit argument. -/
structure compilerState where
  numberOfJumps : Nat
  numberOfItemsInDataSection : Nat
  dataSection : String
  compiledFunctions : List (String × compiledFunction)
  deriving DecidableEq

/-- Lookup in the compiled-functions map. -/
def mapLookup (m : List (String × compiledFunction)) (k : String) :
    Option compiledFunction :=
  match m with
  | [] => none
  | (k₁, v) :: rest => if k₁ = k then some v else mapLookup rest k

/-- Store in the compiled-functions map (replace the existing entry or
append a new one). -/
def mapStore (m : List (String × compiledFunction)) (k : String)
    (v : compiledFunction) : List (String × compiledFunction) :=
  match m with
  | [] => [(k, v)]
  | (k₁, v₁) :: rest =>
    if k₁ = k then (k₁, v) :: rest else (k₁, v₁) :: mapStore rest k v

/-- `compiler.go` `createNewJumpLabel`: increments the jump counter and
returns `jumpLabelN` for the new value. -/
def createNewJumpLabel (st : compilerState) : compilerState × String :=
  ({ st with numberOfJumps := st.numberOfJumps + 1 },
   "jumpLabel" ++ toString (st.numberOfJumps + 1))

/-- `compiler.go` `createNewDataSectionLabel`. -/
def createNewDataSectionLabel (st : compilerState) : compilerState × String :=
  ({ st with numberOfItemsInDataSection := st.numberOfItemsInDataSection + 1 },
   "dataSectionLabel" ++ toString (st.numberOfItemsInDataSection + 1))

mutual

/-- `compiler.go` `transformFunctionDefinitionIntoValidAssembly`: the
linker pass on one function.  Early-returns unchanged when the jump
label is already set; otherwise assigns `_start` (for `main`) or a
fresh jump label, prepends `label:` and resolves the sentinels.  The
`assert(eq(ok, true))` on a missing map entry is a panic (`none`), and
the fuel models the unbounded rewrite loop (`none` on exhaustion). -/
def transformFunctionDefinitionIntoValidAssembly :
    Nat → compilerState → String → List Char → Option compilerState
  | 0, _, _, _ => none
  | fuel + 1, st, functionName, returnAssembly =>
    match mapLookup st.compiledFunctions functionName with
    | none => none
    | some fd =>
      if fd.jumpLabel ≠ "" then some st
      else
        let p := if functionName = "main" then (st, "_start")
                 else createNewJumpLabel st
        let fd₁ : compiledFunction := ⟨fd.references, p.2, fd.assembly⟩
        let st₁ : compilerState :=
          ⟨p.1.numberOfJumps, p.1.numberOfItemsInDataSection, p.1.dataSection,
           mapStore p.1.compiledFunctions functionName fd₁⟩
        match resolveSentinels fuel st₁ []
            ('\n' :: str p.2 ++ ':' :: fd.assembly) false returnAssembly with
        | none => none
        | some r =>
          some ⟨r.1.numberOfJumps, r.1.numberOfItemsInDataSection, r.1.dataSection,
            mapStore r.1.compiledFunctions functionName ⟨fd.references, p.2, r.2⟩⟩

/-- The `for index := 0 ...` rewrite loop inside
`transformFunctionDefinitionIntoValidAssembly`.  `processed` holds the
bytes before the Go cursor and `remaining` the bytes at and after it.
A `'` toggles the in-character-literal flag; outside a literal, `\` is
substituted by the return assembly and `/NAME/` by the code for a call
of `NAME` — in both cases the Go cursor resumes just *after* the byte
position of the substituted sentinel, inside the substituted text, so
the corresponding bytes are moved to `processed` unexamined. -/
def resolveSentinels :
    Nat → compilerState → List Char → List Char → Bool → List Char →
    Option (compilerState × List Char)
  | 0, _, _, _, _, _ => none
  | fuel + 1, st, processed, remaining, inQuote, returnAssembly =>
    match remaining with
    | [] => some (st, processed)
    | c :: rest =>
      if c = singleQuoteChar then
        resolveSentinels fuel st (processed ++ [c]) rest (!inQuote) returnAssembly
      else if inQuote then
        resolveSentinels fuel st (processed ++ [c]) rest inQuote returnAssembly
      else if c = '/' then
        let nm := rest.takeWhile (fun d => decide (d ≠ '/'))
        if nm.length = rest.length then none
        else
          match getAssemblyForFunctionCall fuel st nm.asString with
          | none => none
          | some q =>
            let newRem := str q.2 ++ rest.drop (nm.length + 1)
            resolveSentinels fuel q.1 (processed ++ newRem.take (nm.length + 2))
              (newRem.drop (nm.length + 2)) inQuote returnAssembly
      else if c = backslashChar then
        let newRem := returnAssembly ++ rest
        resolveSentinels fuel st (processed ++ newRem.take 1) (newRem.drop 1)
          inQuote returnAssembly
      else
        resolveSentinels fuel st (processed ++ [c]) rest inQuote returnAssembly

/-- `compiler.go` `getAssemblyForFunctionCall`: decides between
inlining (reference count exactly 1: finalize the callee with return
assembly `jmp resume` and substitute `jmp calleeLabel\nresume:`) and a
real call (finalize with `ret`, substitute `call calleeLabel`).  A
reference count of 0 — including a missing map entry, whose Go zero
value has 0 references — panics. -/
def getAssemblyForFunctionCall :
    Nat → compilerState → String → Option (compilerState × String)
  | 0, _, _ => none
  | fuel + 1, st, functionName =>
    let refs := ((mapLookup st.compiledFunctions functionName).map
      compiledFunction.references).getD 0
    if refs = 0 then none
    else if refs = 1 then
      let p := createNewJumpLabel st
      match transformFunctionDefinitionIntoValidAssembly fuel p.1 functionName
          (str ("jmp " ++ p.2)) with
      | none => none
      | some st₂ =>
        some (st₂, "jmp " ++
          ((mapLookup st₂.compiledFunctions functionName).map
            compiledFunction.jumpLabel).getD "" ++ "\n" ++ p.2 ++ ":")
    else
      match transformFunctionDefinitionIntoValidAssembly fuel st functionName
          (str "ret") with
      | none => none
      | some st₁ =>
        some (st₁, "call " ++
          ((mapLookup st₁.compiledFunctions functionName).map
            compiledFunction.jumpLabel).getD "")

end

/-- The jump label recorded for `n` (Go's zero value `""` when the
entry is missing). -/
def jumpLabelOf (st : compilerState) (n : String) : String :=
  ((mapLookup st.compiledFunctions n).map compiledFunction.jumpLabel).getD ""

/-- The assembly recorded for `n` (Go's zero value when missing). -/
def assemblyOf (st : compilerState) (n : String) : List Char :=
  ((mapLookup st.compiledFunctions n).map compiledFunction.assembly).getD []

/-- The concatenation step of `compileAssembly` (`compiler.go` lines
1177–1182): `".global " + main label + "\n.text" + data section`, then
`out += function.assembly` for each function of the compiled-function
map — Go ranges over the map, whose iteration order is unspecified, so
the order is an explicit argument here — then a trailing newline. -/
def concatCompiledOutput (st : compilerState) (order : List String) : List Char :=
  str (".global " ++ jumpLabelOf st "main" ++ "\n.text" ++ st.dataSection) ++
  (order.map (assemblyOf st)).flatten ++ ['\n']

/-! ## Code generator (`compiler.go`, top part, and `AST.go`) -/

/-- `compiler.go` `individualRegisterState`. -/
structure individualRegisterState where
  variableName : String
  stopVariableFromBeingDropped : Bool
  variableNameWasDefinedAt : textLocation
  registerWasDefinedAsMutableAt : textLocation
  deriving DecidableEq

/-- The zero value of `individualRegisterState`. -/
def emptyRegister : individualRegisterState := ⟨"", false, ⟨0, 0⟩, ⟨0, 0⟩⟩

/-- `compiler.go` `registerState`: the 16 per-register states plus the
return registers of the surrounding function.  The `registers` list
always has length 16 on every reachable path (it is created by
`parseFunctionDefinitionRegisters` from the 16-element Go array). -/
structure registerState where
  registers : List individualRegisterState
  functionReturnValueRegisters : List Register
  deriving DecidableEq

/-- Reading `regState.registers[r]`: Go panics when the `int8` index is
out of range, modelled by `none`. -/
def regGet (rs : registerState) (r : Register) : Option individualRegisterState :=
  if 0 ≤ r ∧ r.toNat < rs.registers.length then rs.registers.get? r.toNat else none

/-- Writing `regState.registers[r]`; out-of-range panics are `none`. -/
def regSet (rs : registerState) (r : Register) (v : individualRegisterState) :
    Option registerState :=
  if 0 ≤ r ∧ r.toNat < rs.registers.length then
    some ⟨rs.registers.set r.toNat v, rs.functionReturnValueRegisters⟩
  else none

/-- `AST.go` `registerAndNameAndLocation`. -/
structure registerAndNameAndLocation where
  location : textLocation
  register : Register
  name : String
  deriving DecidableEq

/-- `AST.go` `comparisonOperation`. -/
inductive comparisonOperation where
  | UnknownComparisonOperation
  | GreaterThan
  | LessThan
  | GreaterThanOrEqual
  | LessThanOrEqual
  | Equal
  | NotEqual
  deriving DecidableEq

/-- `AST.go` `rawValue` (its four implementations `variableValue`,
`numberValue` over `uint64`/`int64`/`float64`, `stringValue` and
`charecterValue`).  A `float64` payload is kept as the literal text it
was parsed from; no claim depends on Go's float formatting. -/
inductive rawValue where
  | variableValue (location : textLocation) (name : String)
      (variableIsDropped : Bool) (pointerDereferenceLayers : Nat)
  | uintValue (location : textLocation) (value : Nat)
  | intValue (location : textLocation) (value : Int)
  | floatValue (location : textLocation) (raw : String)
  | stringValue (location : textLocation) (value : String)
  | characterValue (location : textLocation) (value : String)
  deriving DecidableEq

/-- The source location of a raw value (`location()` in `AST.go`). -/
def rawValue.location : rawValue → textLocation
  | .variableValue l _ _ _ => l
  | .uintValue l _ => l
  | .intValue l _ => l
  | .floatValue l _ => l
  | .stringValue l _ => l
  | .characterValue l _ => l

/-- `AST.go` `registerAndRawValueAndLocation`. -/
structure registerAndRawValueAndLocation where
  location : textLocation
  register : Register
  value : rawValue
  deriving DecidableEq

/-- `AST.go` `condition` (implementations `booleanValue`, `comparison`
and `boolean`). -/
inductive condition where
  | booleanValue (location : textLocation) (value : Bool)
  | comparison (location : textLocation) (operator : comparisonOperation)
      (leftValue rightValue : rawValue)
  | boolean (location : textLocation) (isAndInsteadOfOr : Bool)
      (conditions : List condition)

/-- `AST.go` `variableMutationDestination`. -/
structure variableMutationDestination where
  location : textLocation
  register : Register
  name : String
  pointerDereferenceLayers : Nat
  deriving DecidableEq

/-- `AST.go` `mutationOperation` and its implementations. -/
inductive mutationOperation where
  | incrementBy1 (location : textLocation)
  | decrementBy1 (location : textLocation)
  | setToFunctionCallValue (location : textLocation) (functionName : String)
      (functionArgs : List registerAndRawValueAndLocation)
  | setToRawValue (val : rawValue)
  | incrementByRawValue (val : rawValue)
  | decrementByRawValue (val : rawValue)
  | multiplyByRawValue (val : rawValue)
  | divideByRawValue (val : rawValue)

/-- `AST.go` `statement` and its implementations. -/
inductive statement where
  | comment (location : textLocation) (contents : String)
  | mutationStatement (location : textLocation)
      (destination : List variableMutationDestination)
      (operation : mutationOperation)
  | dropVariableStatement (location : textLocation) (variableName : String)
  | ifElseStatement (location : textLocation) (cond : condition)
      (ifBlock elseBlock : List statement)
  | whileLoop (location : textLocation) (cond : condition)
      (loopBody : List statement)
  | returnStatement (location : textLocation)
      (returnedValues : List registerAndRawValueAndLocation)
  | breakStatement (location : textLocation)
  | continueStatement (location : textLocation)

/-- `AST.go` `functionDefinition`. -/
structure functionDefinition where
  location : textLocation
  name : String
  arguments : List registerAndNameAndLocation
  mutatedRegisters : List registerAndNameAndLocation
  body : List statement

/-- `compiler.go` `assemblyForControlFlowKeywords` (current revision:
`continue` and `break` only). -/
structure assemblyForControlFlowKeywords where
  continueAssembly : String
  breakAssembly : String
  deriving DecidableEq

/-- `compiler.go` `registerAndLocation`. -/
structure registerAndLocation where
  register : Register
  location : textLocation
  deriving DecidableEq

/-- `compiler.go` `parseRegisterStatesToInnerScope`: copies the
register states into a nested scope, locking every bound variable
against being dropped there. -/
def parseRegisterStatesToInnerScope (regState : registerState) : registerState :=
  ⟨regState.registers.map (fun r =>
     if r.variableName ≠ "" then
       ⟨r.variableName, true, r.variableNameWasDefinedAt,
        r.registerWasDefinedAsMutableAt⟩
     else r),
   regState.functionReturnValueRegisters⟩

/-- The register-search loop of `getRegisterFromVariableName` (and of
`validateVariableMutationDestination`): the first index whose register
state holds the variable name, scanning upwards from register 0. -/
def findRegisterIdx (regs : List individualRegisterState) (name : String) :
    Option Nat :=
  match regs with
  | [] => none
  | r :: rest =>
    if r.variableName = name then some 0
    else (findRegisterIdx rest name).map (· + 1)

/-- `compiler.go` `getRegisterFromVariableName`: finds the register a
variable is bound to (scanning registers 0, 1, 2, …), and when
`variableIsDropped` also validates and performs the drop.  The
`assert(notEq(variableName, ""))` is a panic (`none`).  Returns the
possibly-updated state, the register (`UnknownRegister` on error), and
the error slot. -/
def getRegisterFromVariableName (regState : registerState) (variableName : String)
    (variableIsDropped : Bool) (variableLocation : textLocation) :
    Option (registerState × Register × codeParsingError) :=
  if variableName = "" then none
  else
    match findRegisterIdx regState.registers variableName with
    | none =>
      some (regState, UnknownRegister,
        ⟨some ("Could not find a variable called `" ++ variableName ++ "`"),
         variableLocation⟩)
    | some idx =>
      let register : Register := Int.ofNat idx
      match regGet regState register with
      | none => none
      | some entry =>
        if !variableIsDropped then
          some (regState, register, ⟨none, ⟨0, 0⟩⟩)
        else if entry.stopVariableFromBeingDropped then
          some (regState, UnknownRegister,
            ⟨some ("You cannot drop the `" ++ variableName ++
               "` variable in this scope since the variable is declared outside this scope"),
             variableLocation⟩)
        else if entry.registerWasDefinedAsMutableAt.line = 0 then
          some (regState, UnknownRegister,
            ⟨some ("Without this register (r" ++ toString register ++
               ") being mutable, you cannot reserve this register for another " ++
               "variable after you have dropped the old variable ( `" ++
               variableName ++ "`) at this line of code. You also won't be able " ++
               "to mutate this register after you have dropped it. So there is " ++
               "no point in dropping this variable."),
             variableLocation⟩)
        else
          match regSet regState register
              ⟨"", entry.stopVariableFromBeingDropped, ⟨0, 0⟩,
               entry.registerWasDefinedAsMutableAt⟩ with
          | none => none
          | some regState₁ => some (regState₁, register, ⟨none, ⟨0, 0⟩⟩)

/-- `compiler.go` `convertValueToAssembly`: the operand text for a raw
value.  String literals allocate a data-section label; variables may
perform a drop.  Returns `(state, regState, text, err)`. -/
def convertValueToAssembly (st : compilerState) (regState : registerState)
    (untypedValue : rawValue) :
    Option (compilerState × registerState × String × codeParsingError) :=
  match untypedValue with
  | .uintValue _ v => some (st, regState, "$" ++ toString v, ⟨none, ⟨0, 0⟩⟩)
  | .intValue _ v => some (st, regState, "$" ++ toString v, ⟨none, ⟨0, 0⟩⟩)
  | .floatValue _ raw => some (st, regState, "$" ++ raw, ⟨none, ⟨0, 0⟩⟩)
  | .variableValue loc name dropped layers =>
    match getRegisterFromVariableName regState name dropped loc with
    | none => none
    | some (regState₁, registerNumber, err) =>
      if err.msg ≠ none then some (st, regState₁, "", err)
      else
        match commonAssemblyRegisterToX86Register registerNumber with
        | none => none
        | some reg =>
          some (st, regState₁,
            String.mk (List.replicate layers '(') ++ reg ++
              String.mk (List.replicate layers ')'),
            ⟨none, ⟨0, 0⟩⟩)
  | .stringValue _ v =>
    let p := createNewDataSectionLabel st
    some ({ p.1 with dataSection :=
        p.1.dataSection ++ "\n" ++ p.2 ++ ": .ascii \"" ++ v ++ "\"" },
      regState, "$" ++ p.2, ⟨none, ⟨0, 0⟩⟩)
  | .characterValue _ v =>
    some (st, regState,
      "$" ++ singleQuoteChar.toString ++ v ++ singleQuoteChar.toString,
      ⟨none, ⟨0, 0⟩⟩)

/-- `compiler.go` `isValidLastOperandForMoveAndCmpInstructions`. -/
def isValidLastOperandForMoveAndCmpInstructions : rawValue → Bool
  | .variableValue _ _ _ _ => true
  | _ => false

/-- The zero value `codeParsingError{}` (no error). -/
def noError : codeParsingError := ⟨none, ⟨0, 0⟩⟩

/-- `compiler.go` `conditionToAssembly` comparison-operator flip used
when the operands are swapped into AT&T order. -/
def flipComparisonOperator : comparisonOperation → comparisonOperation
  | .LessThan => .GreaterThan
  | .GreaterThan => .LessThan
  | .LessThanOrEqual => .GreaterThanOrEqual
  | .GreaterThanOrEqual => .LessThanOrEqual
  | op => op

/-- The jump mnemonics chosen for a comparison operator: the pair
`(jumpOnTrueCmp, jumpOnFalseCmp)` of `conditionToAssembly`; the Go
`default` case panics (`none`). -/
def comparisonJumps : comparisonOperation → Option (String × String)
  | .GreaterThan => some ("jl", "jge")
  | .GreaterThanOrEqual => some ("jle", "jg")
  | .LessThan => some ("jg", "jle")
  | .LessThanOrEqual => some ("jge", "jl")
  | .Equal => some ("je", "jne")
  | .NotEqual => some ("jne", "je")
  | .UnknownComparisonOperation => none

mutual

/-- `compiler.go` `conditionToAssembly`.  The entry assertion that at
least one jump target is non-empty is a panic (`none`) when violated;
state and register-state threading mirrors the Go pointer arguments.
On an error the returned assembly is the empty string, as in the Go
`return "", err` paths. -/
def conditionToAssembly :
    Nat → compilerState → registerState → condition → String → String →
    Option (compilerState × registerState × String × codeParsingError)
  | 0, _, _, _, _, _ => none
  | fuel + 1, st, regState, untypedCondition, jumpToOnTrue, jumpToOnFalse =>
    if jumpToOnTrue = "" ∧ jumpToOnFalse = "" then none
    else
      match untypedCondition with
      | .booleanValue _ value =>
        if value then
          if jumpToOnTrue = "" then some (st, regState, "", noError)
          else some (st, regState, "\njmp " ++ jumpToOnTrue, noError)
        else
          if jumpToOnFalse = "" then some (st, regState, "", noError)
          else some (st, regState, "\njmp " ++ jumpToOnFalse, noError)
      | .boolean _ isAndInsteadOfOr conditions =>
        let p := createNewJumpLabel st
        let jumpToOnClauseTrue :=
          if isAndInsteadOfOr then ""
          else if jumpToOnTrue ≠ "" then jumpToOnTrue else p.2
        let jumpToOnClauseFalse :=
          if isAndInsteadOfOr then
            (if jumpToOnFalse ≠ "" then jumpToOnFalse else p.2)
          else ""
        match conditionClausesToAssembly fuel p.1 regState conditions
            jumpToOnClauseTrue jumpToOnClauseFalse jumpToOnTrue jumpToOnFalse "" with
        | none => none
        | some (st₁, regState₁, out, err) =>
          if err.msg ≠ none then some (st₁, regState₁, "", err)
          else some (st₁, regState₁, out ++ "\n" ++ p.2 ++ ":", noError)
      | .comparison loc operator leftValue rightValue =>
        let swapped :=
          if !isValidLastOperandForMoveAndCmpInstructions rightValue then
            (if !isValidLastOperandForMoveAndCmpInstructions leftValue then
               none
             else
               some (rightValue, leftValue, flipComparisonOperator operator))
          else some (leftValue, rightValue, operator)
        match swapped with
        | none =>
          some (st, regState, "",
            ⟨some "Comparisons must have at least 1 variable name or pointer to memory in them",
             loc⟩)
        | some (l, r, op) =>
          match convertValueToAssembly st regState l with
          | none => none
          | some (st₁, regState₁, firstArg, err₁) =>
            if err₁.msg ≠ none then some (st₁, regState₁, "", err₁)
            else
              match convertValueToAssembly st₁ regState₁ r with
              | none => none
              | some (st₂, regState₂, secondArg, err₂) =>
                if err₂.msg ≠ none then some (st₂, regState₂, "", err₂)
                else
                  match comparisonJumps op with
                  | none => none
                  | some jumps =>
                    let out := "\ncmp " ++ firstArg ++ ", " ++ secondArg
                    if jumpToOnTrue ≠ "" then
                      if jumpToOnFalse ≠ "" then
                        some (st₂, regState₂,
                          out ++ "\n" ++ jumps.1 ++ " " ++ jumpToOnTrue ++
                            "\njmp " ++ jumpToOnFalse, noError)
                      else
                        some (st₂, regState₂,
                          out ++ "\n" ++ jumps.1 ++ " " ++ jumpToOnTrue, noError)
                    else
                      some (st₂, regState₂,
                        out ++ "\n" ++ jumps.2 ++ " " ++ jumpToOnFalse, noError)

/-- The clause loop of the `boolean` case of `conditionToAssembly`::
every clause but the last is lowered with the clause targets, the last
with the caller's targets.  On a clause error the Go code returns
`"", err` from `conditionToAssembly`; here the error is passed up with
an empty accumulated string. -/
def conditionClausesToAssembly :
    Nat → compilerState → registerState → List condition → String → String →
    String → String → String →
    Option (compilerState × registerState × String × codeParsingError)
  | 0, _, _, _, _, _, _, _, _ => none
  | _ + 1, st, regState, [], _, _, _, _, acc =>
    some (st, regState, acc, noError)
  | fuel + 1, st, regState, [clause], _, _, jumpToOnTrue, jumpToOnFalse, acc =>
    match conditionToAssembly fuel st regState clause jumpToOnTrue jumpToOnFalse with
    | none => none
    | some (st₁, regState₁, assembly, err) =>
      if err.msg ≠ none then some (st₁, regState₁, "", err)
      else some (st₁, regState₁, acc ++ assembly, noError)
  | fuel + 1, st, regState, clause :: rest, jumpToOnClauseTrue, jumpToOnClauseFalse,
      jumpToOnTrue, jumpToOnFalse, acc =>
    match conditionToAssembly fuel st regState clause
        jumpToOnClauseTrue jumpToOnClauseFalse with
    | none => none
    | some (st₁, regState₁, assembly, err) =>
      if err.msg ≠ none then some (st₁, regState₁, "", err)
      else
        conditionClausesToAssembly fuel st₁ regState₁ rest
          jumpToOnClauseTrue jumpToOnClauseFalse jumpToOnTrue jumpToOnFalse
          (acc ++ assembly)

end

/-- `fmt.Sprint(reflect.TypeOf(value))` for the dynamic type of a raw
value, as interpolated into some error messages. -/
def goTypeName : rawValue → String
  | .variableValue _ _ _ _ => "main.variableValue"
  | .uintValue _ _ => "main.numberValue[uint64]"
  | .intValue _ _ => "main.numberValue[int64]"
  | .floatValue _ _ => "main.numberValue[float64]"
  | .stringValue _ _ => "main.stringValue"
  | .characterValue _ _ => "main.charecterValue"

/-- `fmt.Sprint` of a `textLocation` struct value. -/
def sprintTextLocation (l : textLocation) : String :=
  "\x7b" ++ toString l.line ++ " " ++ toString l.column ++ "\x7d"

/-- `fmt.Sprint` of a `registerAndLocation` struct value (the duplicate
register error of `compileFunctionCallArguments` prints the whole
struct). -/
def sprintRegisterAndLocation (r : registerAndLocation) : String :=
  "\x7b" ++ toString r.register ++ " " ++ sprintTextLocation r.location ++ "\x7d"

/-- The index-carrying pairwise loop of
`checkRegisterListsAreTheSame`; `i` is the 0-based position. -/
def checkRegisterPairs :
    Nat → List Register → List registerAndLocation → Option codeParsingError
  | _, [], _ => some noError
  | _, _ :: _, [] => none
  | i, e :: es, g :: gs =>
    if e ≠ g.register then
      some ⟨some ("On register number " ++ toString (i + 1) ++
          ": expected the register r" ++ toString e ++
          ", got the register r" ++ toString g.register), g.location⟩
    else checkRegisterPairs (i + 1) es gs

/-- `helpers.go` `checkRegisterListsAreTheSame`.  When the lengths
differ the Go code reads `givenRegisters[0].location`, which panics on
an empty list (`none`). -/
def checkRegisterListsAreTheSame (expectedRegisters : List Register)
    (givenRegisters : List registerAndLocation) : Option codeParsingError :=
  if expectedRegisters.length ≠ givenRegisters.length then
    match givenRegisters with
    | [] => none
    | g :: _ =>
      some ⟨some ("Expected " ++ toString expectedRegisters.length ++
          " items, got " ++ toString givenRegisters.length ++ " items"),
        g.location⟩
  else checkRegisterPairs 0 expectedRegisters givenRegisters

/-- `compiler.go` `compileFunctionCallArguments`: lowers the arguments
of a call (or the values of a return statement), collecting the
argument registers in order.  Threads the register state (drops via
variables, bindings are unchanged), accumulates assembly, and stops at
the first error exactly as the Go code.  Results:
`(state, regState, assembly, argument registers, errors)`. -/
def compileFunctionCallArguments (st : compilerState) (regState : registerState)
    (functionArguments : List registerAndRawValueAndLocation)
    (checkImplicitVariableMutation : Bool) :
    Option (compilerState × registerState × String × List registerAndLocation ×
      List codeParsingError) :=
  go st regState functionArguments "" []
where
  /-- One Go loop iteration per argument; `assembly` and `registers`
  are the accumulators. -/
  go (st : compilerState) (regState : registerState)
      (args : List registerAndRawValueAndLocation) (assembly : String)
      (registers : List registerAndLocation) :
      Option (compilerState × registerState × String × List registerAndLocation ×
        List codeParsingError) :=
    match args with
    | [] => some (st, regState, assembly, registers, [])
    | arg :: rest =>
      let afterRegister :
          Option (compilerState × registerState × Register × String ×
            List codeParsingError) :=
        if arg.register = UnknownRegister then
          match arg.value with
          | .variableValue vloc vname vdropped _ =>
            match getRegisterFromVariableName regState vname vdropped vloc with
            | none => none
            | some (regState₁, r, err) =>
              if err.msg ≠ none then some (st, regState₁, r, assembly, [err])
              else some (st, regState₁, r, assembly, [])
          | v =>
            some (st, regState, UnknownRegister, assembly,
              [⟨some ("If you don't specify which register to use, you must " ++
                  "pass a variable. This argument does not specify which register " ++
                  "to use and passes a value of type " ++ goTypeName v),
                arg.location⟩])
        else
          match regGet regState arg.register with
          | none => none
          | some entry =>
            if entry.registerWasDefinedAsMutableAt.line = 0 then
              some (st, regState, UnknownRegister, assembly,
                [⟨some ("It is not possible to mutate the register r" ++
                    toString arg.register ++ "."), arg.location⟩])
            else if checkImplicitVariableMutation ∧ entry.variableName ≠ "" then
              some (st, regState, UnknownRegister, assembly,
                [⟨some ("It is only possible to mutate the register r" ++
                    toString arg.register ++ " through the variable " ++
                    entry.variableName), arg.location⟩])
            else
              match convertValueToAssembly st regState arg.value with
              | none => none
              | some (st₁, regState₁, argValue, err) =>
                if err.msg ≠ none then
                  some (st₁, regState₁, UnknownRegister, assembly, [err])
                else
                  match commonAssemblyRegisterToX86Register arg.register with
                  | none => none
                  | some x86 =>
                    some (st₁, regState₁, arg.register,
                      assembly ++ "\nmov " ++ argValue ++ ", " ++ x86, [])
      match afterRegister with
      | none => none
      | some (st₁, regState₁, argRegister, assembly₁, errs) =>
        if errs ≠ [] then some (st₁, regState₁, "", [], errs)
        else
          match registers.find? (fun r => r.register = argRegister) with
          | some dup =>
            some (st₁, regState₁, "", [],
              [⟨some ("Register r" ++ sprintRegisterAndLocation dup ++
                  " used atleast twice in function arguments. Each register can " ++
                  "only be used once."), dup.location⟩,
               ⟨some ("Register r" ++ sprintRegisterAndLocation dup ++
                  " used atleast twice in function arguments. Each register can " ++
                  "only be used once."), arg.location⟩])
          | none =>
            go st₁ regState₁ rest assembly₁
              (registers ++ [⟨argRegister, arg.location⟩])

/-- `compiler.go` `validateVariableMutationDestination`: validates one
mutation destination, resolves its register, and (when a new variable
is introduced) binds the variable name in the register state.  The
`assert` calls are panics (`none`). -/
def validateVariableMutationDestination
    (mutatedValue : variableMutationDestination) (regState : registerState) :
    Option (registerState × Register × List codeParsingError) :=
  let errs₁ : Option (List codeParsingError) :=
    if mutatedValue.register ≠ UnknownRegister then
      match regGet regState mutatedValue.register with
      | none => none
      | some entry =>
        if entry.variableName ≠ "" then
          some [⟨some ("The register r" ++ toString mutatedValue.register ++
              " is already reserved for a variable called `" ++
              entry.variableName ++ "`. If you want to stop using the old " ++
              "variable, then add `drop " ++ entry.variableName ++
              "` before this line of code. If you want to continue using the " ++
              "old variable, then you have 2 options. Your first option is to " ++
              "refactor your code so that either this line of code, or line " ++
              sprintTextLocation entry.variableNameWasDefinedAt ++
              " where the `" ++ entry.variableName ++
              "` variable was defined does not use the r" ++
              toString mutatedValue.register ++
              " register. Your second option is to copy the old variable to a " ++
              "different register."), mutatedValue.location⟩]
        else some []
    else some []
  match errs₁ with
  | none => none
  | some errs₁ =>
    let registerTheVariableWasAlreadyDefinedToUse : Register :=
      if mutatedValue.name ≠ "" then
        match findRegisterIdx regState.registers mutatedValue.name with
        | some idx => Int.ofNat idx
        | none => UnknownRegister
      else UnknownRegister
    let errs₂ :=
      if mutatedValue.name ≠ "" then
        if registerTheVariableWasAlreadyDefinedToUse = -1 then
          (if mutatedValue.register = -1 then
            errs₁ ++ [⟨some ("You have tried to mutate a variable (`" ++
                mutatedValue.name ++ "`) that has not been defined yet. If you " ++
                "want to define this variable, then add the register that this " ++
                "variable will use next to the variable name."),
              mutatedValue.location⟩]
          else errs₁)
        else if mutatedValue.register ≠ -1 then
          (if registerTheVariableWasAlreadyDefinedToUse ≠ mutatedValue.register then
            errs₁ ++ [⟨some ("`" ++ mutatedValue.name ++
                "` is already defined as using the register r" ++
                toString registerTheVariableWasAlreadyDefinedToUse ++
                ", however here you are trying to  redefine this variable to " ++
                "use a different register (r" ++ toString mutatedValue.register ++
                "). If you want to stop using the old variable, then add `drop" ++
                mutatedValue.name ++ "` before this line of code. If you want " ++
                "to use both variables, then you will have to change the name " ++
                "of one of the variables."), mutatedValue.location⟩]
          else
            errs₁ ++ [⟨some ("Variable ( " ++ mutatedValue.name ++
                ") and register (r" ++ toString mutatedValue.register ++
                ") named to mutate a variable that is already defined. After a " ++
                "variable has been defined, it can be mutated by just naming " ++
                "the variable instead of naming the variable and the register."),
              mutatedValue.location⟩])
        else errs₁
      else errs₁
    let register? : Option Register :=
      if mutatedValue.register = UnknownRegister then
        (if registerTheVariableWasAlreadyDefinedToUse = -1 then none
         else some registerTheVariableWasAlreadyDefinedToUse)
      else
        (if registerTheVariableWasAlreadyDefinedToUse = -1 then
          some mutatedValue.register
         else none)
    match register? with
    | none => none
    | some register =>
      match regGet regState register with
      | none => none
      | some entryR =>
        let errs₃ :=
          if entryR.registerWasDefinedAsMutableAt.line = 0 then
            errs₂ ++ [⟨some ("You cannot mutate the r" ++ toString register ++
                " register unless you add it to the list of registers that " ++
                "the function mutates."), mutatedValue.location⟩]
          else errs₂
        if errs₃ ≠ [] then some (regState, UnknownRegister, errs₃)
        else
          if mutatedValue.register ≠ -1 ∧ mutatedValue.name ≠ "" then
            if entryR.variableName = "" ∧ entryR.variableNameWasDefinedAt = ⟨0, 0⟩ then
              match regSet regState register
                  ⟨mutatedValue.name, entryR.stopVariableFromBeingDropped,
                   mutatedValue.location, entryR.registerWasDefinedAsMutableAt⟩ with
              | none => none
              | some regState₁ => some (regState₁, register, [])
            else none
          else some (regState, register, [])

/-- `compiler.go` `compileVariableMutation`: lowers `=`, `+=`, `-=`,
`*=`, `/=`, `++` and `--` (for the last two `source = none`). -/
def compileVariableMutation (st : compilerState) (instruction : String)
    (source : Option rawValue) (destination : List variableMutationDestination)
    (location : textLocation) (regState : registerState) :
    Option (compilerState × registerState × String × List codeParsingError) :=
  if destination.length ≠ 1 then
    some (st, regState, "",
      [⟨some ("Expect 1 value on left side of equals unless a function is " ++
          "being called. Got " ++ toString destination.length ++
          " values on left side of equals being set to one value of type " ++
          (match source with
           | none => "<nil>"
           | some v => goTypeName v) ++
          ". Please split this into multiply assignments."), location⟩])
  else
    match destination with
    | [] => none
    | dest :: _ =>
      match validateVariableMutationDestination dest regState with
      | none => none
      | some (regState₁, register, errs) =>
        if errs ≠ [] then some (st, regState₁, "", errs)
        else if dest.name = "" then
          some (st, regState₁, "",
            [⟨some ("Without giving a register a variable name, the value that" ++
                " you assign to the register here cannot be used later, so " ++
                "there is no point in assigning a value to a register without " ++
                "reserving the register for use with a specific variable."),
              dest.location⟩])
        else
          match commonAssemblyRegisterToX86Register register with
          | none => none
          | some x86 =>
            let mutatedRegisterAssembly :=
              String.mk (List.replicate dest.pointerDereferenceLayers '(') ++
              x86 ++
              String.mk (List.replicate dest.pointerDereferenceLayers ')')
            match source with
            | none =>
              some (st, regState₁,
                "\n" ++ instruction ++ " " ++ mutatedRegisterAssembly, [])
            | some sourceValue =>
              match convertValueToAssembly st regState₁ sourceValue with
              | none => none
              | some (st₁, regState₂, valueAssembly, err) =>
                if err.msg ≠ none then some (st₁, regState₂, "", [err])
                else
                  some (st₁, regState₂,
                    "\n" ++ instruction ++ " " ++ valueAssembly ++ ", " ++
                      mutatedRegisterAssembly, [])

/-- The mutated-registers loop of `parseFunctionDefinitionRegisters`. -/
def parseMutatedRegistersLoop :
    List registerAndNameAndLocation → registerState →
    Option (registerState × List codeParsingError)
  | [], out => some (out, [])
  | register :: rest, out =>
    if register.register = -1 then none
    else
      let out₁ : registerState :=
        if register.name ≠ "" then
          ⟨out.registers, out.functionReturnValueRegisters ++ [register.register]⟩
        else out
      match regGet out₁ register.register with
      | none => none
      | some entry =>
        if entry.registerWasDefinedAsMutableAt.line ≠ 0 then
          some (⟨List.replicate 16 emptyRegister, []⟩,
            [⟨some ("Register " ++ register.name ++
                " used twice in mutated registers"),
              entry.registerWasDefinedAsMutableAt⟩,
             ⟨some ("Register " ++ register.name ++
                " used twice in mutated registers"), register.location⟩])
        else
          match regSet out₁ register.register
              ⟨entry.variableName, entry.stopVariableFromBeingDropped,
               entry.variableNameWasDefinedAt, register.location⟩ with
          | none => none
          | some out₂ => parseMutatedRegistersLoop rest out₂

/-- The function-arguments loop of `parseFunctionDefinitionRegisters`.
Note that the location attached to the first of the duplicate-name
error pair is read from the entry of `arg.register` (not from the
register actually holding the duplicate name), exactly as the Go code
does. -/
def parseFunctionArgsLoop :
    List registerAndNameAndLocation → registerState →
    Option (registerState × List codeParsingError)
  | [], out => some (out, [])
  | arg :: rest, out =>
    if arg.register = -1 then none
    else if arg.name = "" then none
    else
      match regGet out arg.register with
      | none => none
      | some entry =>
        if entry.variableName ≠ "" then
          some (⟨List.replicate 16 emptyRegister, []⟩,
            [⟨some ("Register " ++ arg.name ++ " used twice in function " ++
                "arguments. Each register can only be used once."),
              entry.variableNameWasDefinedAt⟩,
             ⟨some ("Register " ++ arg.name ++ " used twice in function " ++
                "arguments. Each register can only be used once."),
              arg.location⟩])
        else if out.registers.any (fun r => r.variableName = arg.name) then
          some (⟨List.replicate 16 emptyRegister, []⟩,
            [⟨some ("Variable name " ++ arg.name ++ " used twice in function " ++
                "arguments. Each variable name can only be used once."),
              entry.variableNameWasDefinedAt⟩,
             ⟨some ("Variable name " ++ arg.name ++ " used twice in function " ++
                "arguments. Each variable name can only be used once."),
              arg.location⟩])
        else
          match regSet out arg.register
              ⟨arg.name, entry.stopVariableFromBeingDropped, arg.location,
               entry.registerWasDefinedAsMutableAt⟩ with
          | none => none
          | some out₁ => parseFunctionArgsLoop rest out₁

/-- `compiler.go` `parseFunctionDefinitionRegisters`: builds the
per-function register state from the declared mutated registers and
the parameters. -/
def parseFunctionDefinitionRegisters
    (mutatedRegisters functionArgs : List registerAndNameAndLocation) :
    Option (registerState × List codeParsingError) :=
  match parseMutatedRegistersLoop mutatedRegisters
      ⟨List.replicate 16 emptyRegister, []⟩ with
  | none => none
  | some (out, errs) =>
    if errs ≠ [] then some (⟨List.replicate 16 emptyRegister, []⟩, errs)
    else parseFunctionArgsLoop functionArgs out

/-- Lookup in the sibling-functions map (`map[string]functionDefinition`). -/
def siblingLookup (m : List (String × functionDefinition)) (k : String) :
    Option functionDefinition :=
  match m with
  | [] => none
  | (k₁, v) :: rest => if k₁ = k then some v else siblingLookup rest k

/-- The argument registers expected by a built-in syscall wrapper
(`compileFunctionCall`). -/
def syscallExpectedArgRegisters (functionName : String) : Option (List Register) :=
  if functionName = "sysRead" ∨ functionName = "sysWrite" ∨
     functionName = "sysOpen" then some [5, 4, 3]
  else if functionName = "sysClose" ∨ functionName = "sysBrk" ∨
          functionName = "sysExit" then some [5]
  else none

/-- The inline code emitted for a built-in syscall wrapper
(`compileFunctionCall`); `none` is the "Call to undefined function"
path. -/
def syscallCallCode (functionName : String) : Option String :=
  if functionName = "sysRead" then some "mov $0, %rax\nsyscall"
  else if functionName = "sysWrite" then some "mov $1, %rax\nsyscall"
  else if functionName = "sysOpen" then some "mov $2, %rax\nsyscall"
  else if functionName = "sysClose" then some "mov $3, %rax\nsyscall"
  else if functionName = "sysBrk" then some "mov $12, %rax\nsyscall"
  else if functionName = "sysExit" then some "mov $60, %rax\nsyscall"
  else none

/-- The mutated-register list a built-in syscall wrapper guarantees
(`compileFunctionCall`). -/
def syscallExpectedMutatedRegisters (functionName : String) :
    Option (List registerAndNameAndLocation) :=
  if functionName = "sysRead" ∨ functionName = "sysWrite" ∨
     functionName = "sysClose" ∨ functionName = "sysBrk" ∨
     functionName = "sysExit" then some [⟨⟨0, 0⟩, 0, "exitCode"⟩]
  else if functionName = "sysOpen" then some [⟨⟨0, 0⟩, 0, "fileDescriptor"⟩]
  else none

/-- The `mapList` of `compileFunctionCall` over a user-defined callee's
parameters, with its `assert(notEq(r.register, UnknownRegister))`
(panic = `none`). -/
def expectedArgRegistersOf (args : List registerAndNameAndLocation) :
    Option (List Register) :=
  match args with
  | [] => some []
  | a :: rest =>
    if a.register = UnknownRegister then none
    else
      match expectedArgRegistersOf rest with
      | none => none
      | some l => some (a.register :: l)

/-- The destination-validation loop of `compileFunctionCall`:
`destination[i].register, addedErrs = validateVariableMutationDestination(...)`
plus the no-dereference check, accumulating every error.  Returns the
updated destinations alongside the threaded register state. -/
def validateCallDestinations :
    List variableMutationDestination → registerState →
    Option (registerState × List variableMutationDestination ×
      List codeParsingError)
  | [], regState => some (regState, [], [])
  | dest :: rest, regState =>
    match validateVariableMutationDestination dest regState with
    | none => none
    | some (regState₁, register, addedErrs) =>
      let derefErrs :=
        if dest.pointerDereferenceLayers > 0 then
          [⟨some "Mutated value in function call cannot be dereferenced with ^",
            dest.location⟩]
        else []
      match validateCallDestinations rest regState₁ with
      | none => none
      | some (regState₂, newRest, restErrs) =>
        some (regState₂,
          ⟨dest.location, register, dest.name, dest.pointerDereferenceLayers⟩ ::
            newRest,
          addedErrs ++ derefErrs ++ restErrs)

/-- The named-return check at the end of `compileFunctionCall`: an
expected mutated register without a name may not be bound to a new
variable by the caller. -/
def checkCallDestinationNames :
    List registerAndNameAndLocation → List variableMutationDestination →
    List codeParsingError
  | [], _ => []
  | _, [] => []
  | e :: es, d :: ds =>
    if e.name = "" ∧ d.name ≠ "" then
      [⟨some ("Function call stores the final value that the r" ++
          toString d.register ++ " register was mutated to in a new " ++
          "variable called `" ++ d.name ++ "`, but the function " ++
          "definition does not guarantee that it will muatate that register."),
        d.location⟩]
    else checkCallDestinationNames es ds

mutual

/-- `compiler.go` `compileBlockToAssembly`: lowers the statements of a
block in order.  The register state is threaded between the statements
of the block (the Go local `regState`), while nested loop/branch
bodies receive a locked copy via `parseRegisterStatesToInnerScope`
whose final value is discarded, exactly like the Go pass-by-value
call.  The returned register state is the Go local's value when the
function returns; Go callers never read it back. -/
def compileBlockToAssembly :
    Nat → compilerState → List statement → registerState →
    List (String × functionDefinition) → assemblyForControlFlowKeywords →
    Option (compilerState × registerState × String × List codeParsingError)
  | 0, _, _, _, _, _ => none
  | fuel + 1, st, block, regState, siblingFunctions, controlFlowKeywordsAssembly =>
    compileBlockLoop fuel st block regState siblingFunctions
      controlFlowKeywordsAssembly ""

/-- The statement loop inside `compileBlockToAssembly`, with the
accumulated assembly made explicit. -/
def compileBlockLoop :
    Nat → compilerState → List statement → registerState →
    List (String × functionDefinition) → assemblyForControlFlowKeywords →
    String →
    Option (compilerState × registerState × String × List codeParsingError)
  | 0, _, _, _, _, _, _ => none
  | _ + 1, st, [], regState, _, _, assembly => some (st, regState, assembly, [])
  | fuel + 1, st, genericStatement :: rest, regState, siblingFunctions,
      controlFlowKeywordsAssembly, assembly =>
    match genericStatement with
    | .comment _ _ =>
      compileBlockLoop fuel st rest regState siblingFunctions
        controlFlowKeywordsAssembly assembly
    | .returnStatement _ returnedValues =>
      if !rest.isEmpty then none
      else
        match compileFunctionCallArguments st regState returnedValues false with
        | none => none
        | some (st₁, regState₁, assemblyForArgs, returnRegisters, errs) =>
          if errs ≠ [] then some (st₁, regState₁, "", errs)
          else
            match checkRegisterListsAreTheSame
                regState₁.functionReturnValueRegisters returnRegisters with
            | none => none
            | some err =>
              if err.msg ≠ none then some (st₁, regState₁, "", [err])
              else
                some (st₁, regState₁,
                  assembly ++ assemblyForArgs ++ "\n" ++ backslashChar.toString,
                  [])
    | .mutationStatement loc destination operation =>
      let lowered :
          Option (compilerState × registerState × String × List codeParsingError) :=
        match operation with
        | .setToFunctionCallValue oploc functionName functionArgs =>
          compileFunctionCall fuel st destination oploc functionName functionArgs
            regState siblingFunctions
        | .incrementBy1 _ =>
          compileVariableMutation st "inc" none destination loc regState
        | .decrementBy1 _ =>
          compileVariableMutation st "dec" none destination loc regState
        | .setToRawValue val =>
          compileVariableMutation st "mov" (some val) destination loc regState
        | .incrementByRawValue val =>
          compileVariableMutation st "add" (some val) destination loc regState
        | .decrementByRawValue val =>
          compileVariableMutation st "sub" (some val) destination loc regState
        | .multiplyByRawValue val =>
          compileVariableMutation st "mul" (some val) destination loc regState
        | .divideByRawValue val =>
          compileVariableMutation st "div" (some val) destination loc regState
      match lowered with
      | none => none
      | some (st₁, regState₁, assemblyForStatement, errs) =>
        if errs ≠ [] then some (st₁, regState₁, "", errs)
        else
          compileBlockLoop fuel st₁ rest regState₁ siblingFunctions
            controlFlowKeywordsAssembly (assembly ++ assemblyForStatement)
    | .whileLoop _ cond loopBody =>
      let p₁ := createNewJumpLabel st
      let p₂ := createNewJumpLabel p₁.1
      let p₃ := createNewJumpLabel p₂.1
      let assembly₁ := assembly ++ "\njmp " ++ p₂.2 ++ "\n" ++ p₁.2 ++ ":"
      match compileBlockToAssembly fuel p₃.1 loopBody
          (parseRegisterStatesToInnerScope regState) siblingFunctions
          ⟨"\njmp " ++ p₂.2, "\njmp " ++ p₃.2⟩ with
      | none => none
      | some (st₁, _, loopBodyAssembly, errs) =>
        if errs ≠ [] then some (st₁, regState, "", errs)
        else
          let assembly₂ := assembly₁ ++ loopBodyAssembly ++ "\n" ++ p₂.2 ++ ":"
          match conditionToAssembly fuel st₁ regState cond p₁.2 "" with
          | none => none
          | some (st₂, regState₂, conditionAssembly, err) =>
            if err.msg ≠ none then some (st₂, regState₂, "", [err])
            else
              compileBlockLoop fuel st₂ rest regState₂ siblingFunctions
                controlFlowKeywordsAssembly
                (assembly₂ ++ conditionAssembly ++ "\n" ++ p₃.2 ++ ":")
    | .ifElseStatement _ cond ifBlock elseBlock =>
      let p := createNewJumpLabel st
      match conditionToAssembly fuel p.1 regState cond "" p.2 with
      | none => none
      | some (st₁, regState₁, ifCheck, err) =>
        if err.msg ≠ none then some (st₁, regState₁, "", [err]) else
        let innerScopeRegStates := parseRegisterStatesToInnerScope regState₁
        match compileBlockToAssembly fuel st₁ ifBlock innerScopeRegStates
            siblingFunctions controlFlowKeywordsAssembly with
        | none => none
        | some (st₂, _, ifBody, errs) =>
          if errs ≠ [] then some (st₂, regState₁, "", errs)
          else
            if elseBlock.length > 0 then
              let p₂ := createNewJumpLabel st₂
              match compileBlockToAssembly fuel p₂.1 elseBlock
                  innerScopeRegStates siblingFunctions
                  controlFlowKeywordsAssembly with
              | none => none
              | some (st₃, _, elseBody, errs₂) =>
                if errs₂ ≠ [] then some (st₃, regState₁, "", errs₂)
                else
                  compileBlockLoop fuel st₃ rest regState₁ siblingFunctions
                    controlFlowKeywordsAssembly
                    (assembly ++ ifCheck ++ ifBody ++ "\njmp " ++ p₂.2 ++
                      "\n" ++ p.2 ++ ":" ++ elseBody ++ "\n" ++ p₂.2 ++ ":")
            else
              compileBlockLoop fuel st₂ rest regState₁ siblingFunctions
                controlFlowKeywordsAssembly
                (assembly ++ ifCheck ++ ifBody ++ "\n" ++ p.2 ++ ":")
    | .breakStatement loc =>
      if controlFlowKeywordsAssembly.breakAssembly = "" then
        some (st, regState, "",
          [⟨some "Break statement is not valid in this scope", loc⟩])
      else
        compileBlockLoop fuel st rest regState siblingFunctions
          controlFlowKeywordsAssembly
          (assembly ++ controlFlowKeywordsAssembly.breakAssembly)
    | .continueStatement loc =>
      if controlFlowKeywordsAssembly.continueAssembly = "" then
        some (st, regState, "",
          [⟨some "Continue statement is not valid in this scope", loc⟩])
      else
        compileBlockLoop fuel st rest regState siblingFunctions
          controlFlowKeywordsAssembly
          (assembly ++ controlFlowKeywordsAssembly.continueAssembly)
    | .dropVariableStatement loc variableName =>
      match getRegisterFromVariableName regState variableName true loc with
      | none => none
      | some (regState₁, _, err) =>
        if err.msg ≠ none then some (st, regState₁, "", [err])
        else
          compileBlockLoop fuel st rest regState₁ siblingFunctions
            controlFlowKeywordsAssembly assembly

/-- `compiler.go` `compileFunctionCall`: lowers a call statement —
compiling a user-defined callee first and bumping its reference count,
or selecting a syscall wrapper — then validates argument and
destination registers against the callee. -/
def compileFunctionCall :
    Nat → compilerState → List variableMutationDestination → textLocation →
    String → List registerAndRawValueAndLocation → registerState →
    List (String × functionDefinition) →
    Option (compilerState × registerState × String × List codeParsingError)
  | 0, _, _, _, _, _, _, _ => none
  | fuel + 1, st, destination, operationLocation, functionName, functionArgs,
      regState, siblingFunctions =>
    if functionName = "" then none
    else
      let stage₁ :
          Option (compilerState × String × Option functionDefinition ×
            List codeParsingError) :=
        match siblingLookup siblingFunctions functionName with
        | some fnDef =>
          match compileFunctionDefinition fuel st fnDef siblingFunctions with
          | none => none
          | some (st₁, errs) =>
            if errs ≠ [] then some (st₁, "", some fnDef, errs)
            else
              match mapLookup st₁.compiledFunctions functionName with
              | none => none
              | some entry =>
                some (⟨st₁.numberOfJumps, st₁.numberOfItemsInDataSection,
                    st₁.dataSection,
                    mapStore st₁.compiledFunctions functionName
                      ⟨entry.references + 1, entry.jumpLabel, entry.assembly⟩⟩,
                  "/" ++ functionName ++ "/", some fnDef, [])
        | none =>
          match syscallCallCode functionName with
          | some code => some (st, code, none, [])
          | none =>
            some (st, "", none,
              [⟨some ("Call to undefined function `" ++ functionName ++ "`"),
                operationLocation⟩])
      match stage₁ with
      | none => none
      | some (st₁, functionCallCode, userDefined, errs₀) =>
        if errs₀ ≠ [] then some (st₁, regState, "", errs₀)
        else
          match compileFunctionCallArguments st₁ regState functionArgs true with
          | none => none
          | some (st₂, regState₁, assemblyForArgs, functionCallArgRegisters,
              errs₁) =>
            if errs₁ ≠ [] then some (st₂, regState₁, "", errs₁)
            else
              let expectedArgs : Option (List Register) :=
                match userDefined with
                | some fnDef => expectedArgRegistersOf fnDef.arguments
                | none => syscallExpectedArgRegisters functionName
              match expectedArgs with
              | none => none
              | some functionExpectedArgRegisters =>
                match checkRegisterListsAreTheSame functionExpectedArgRegisters
                    functionCallArgRegisters with
                | none => none
                | some err =>
                  if err.msg ≠ none then some (st₂, regState₁, "", [err])
                  else
                    match validateCallDestinations destination regState₁ with
                    | none => none
                    | some (regState₂, newDestination, errs₂) =>
                      if errs₂ ≠ [] then some (st₂, regState₂, "", errs₂)
                      else
                        let expectedMutated :
                            Option (List registerAndNameAndLocation) :=
                          match userDefined with
                          | some fnDef => some fnDef.mutatedRegisters
                          | none => syscallExpectedMutatedRegisters functionName
                        match expectedMutated with
                        | none => none
                        | some functionExpectedMutatedRegisters =>
                          match checkRegisterListsAreTheSame
                              (functionExpectedMutatedRegisters.map
                                (fun r => r.register))
                              (newDestination.map
                                (fun d => ⟨d.register, d.location⟩)) with
                          | none => none
                          | some err₂ =>
                            if err₂.msg ≠ none then
                              some (st₂, regState₂, "", [err₂])
                            else
                              match checkCallDestinationNames
                                  functionExpectedMutatedRegisters
                                  newDestination with
                              | e :: _ => some (st₂, regState₂, "", [e])
                              | [] =>
                                some (st₂, regState₂,
                                  assemblyForArgs ++ "\n" ++ functionCallCode,
                                  [])

/-- `compiler.go` `compileFunctionDefinition`: puts a tombstone entry
in the compiled-function map, builds the register state, compiles the
body, asserts the compiled assembly is non-empty
(`assert(notEq(assembly, ""))` — a panic, modelled by `none`), appends
a return sentinel when the body does not end with one, and stores the
sentinel-form assembly. -/
def compileFunctionDefinition :
    Nat → compilerState → functionDefinition →
    List (String × functionDefinition) →
    Option (compilerState × List codeParsingError)
  | 0, _, _, _ => none
  | fuel + 1, st, function, siblingFunctions =>
    if function.name = "" then none
    else
      let st₁ : compilerState :=
        ⟨st.numberOfJumps, st.numberOfItemsInDataSection, st.dataSection,
         mapStore st.compiledFunctions function.name ⟨0, "", []⟩⟩
      match parseFunctionDefinitionRegisters function.mutatedRegisters
          function.arguments with
      | none => none
      | some (regState, errs) =>
        if errs ≠ [] then some (st₁, errs)
        else
          match compileBlockToAssembly fuel st₁ function.body regState
              siblingFunctions ⟨"", ""⟩ with
          | none => none
          | some (st₂, _, assembly, errs₂) =>
            if errs₂ ≠ [] then some (st₂, errs₂)
            else if assembly = "" then none
            else
              let assembly₂ :=
                if assembly.data.getLast? ≠ some backslashChar then
                  assembly ++ "\n" ++ backslashChar.toString
                else assembly
              some (⟨st₂.numberOfJumps, st₂.numberOfItemsInDataSection,
                  st₂.dataSection,
                  mapStore st₂.compiledFunctions function.name
                    ⟨0, "", str assembly₂⟩⟩, [])

end

/-- A byte that is none of the three bytes the sentinel-resolution
scan reacts to (`/`, `\`, `'`). -/
def cleanChar (c : Char) : Prop :=
  c ≠ '/' ∧ c ≠ backslashChar ∧ c ≠ singleQuoteChar

instance (c : Char) : Decidable (cleanChar c) := by
  unfold cleanChar; infer_instance

/-- A byte sequence the sentinel-resolution scan copies through
verbatim. -/
def cleanSeg (l : List Char) : Prop := ∀ c ∈ l, cleanChar c

instance (l : List Char) : Decidable (cleanSeg l) := by
  unfold cleanSeg; infer_instance

/-- A compiled-function map as produced by the code generator for a
source whose `main` calls a sibling `f` once: both entries still hold
sentinel form (`/f/` call placeholder, `\` return placeholders). -/
def c1StartState : compilerState :=
  ⟨0, 0, "",
   [("main", ⟨1, "", str "\nmov $1, %rdi\n/f/\n\\"⟩),
    ("f", ⟨1, "", str "\ninc %rax\n\\"⟩)]⟩

/-- The state after the linker pass has rewritten `c1StartState`
starting from `main` with the Linux exit-syscall return assembly. -/
def c1LinkedState : compilerState :=
  (transformFunctionDefinitionIntoValidAssembly 100 c1StartState "main"
    (str "mov $60, %rax\nmov $0, %rdi\nsyscall")).getD c1StartState

/-- An example register state with the variable `x` bound to register
0 (used by the C7 witness). -/
def exampleBoundState : registerState :=
  ⟨⟨"x", false, ⟨1, 5⟩, ⟨1, 1⟩⟩ :: List.replicate 15 emptyRegister, []⟩

/-! ## Parser (`parser.go`) -/

/-- The `"` character, written via its code point. -/
def doubleQuoteChar : Char := Char.ofNat 34

/-- The generated `String()` method of `keywordType` (stringer output:
the constant's name). -/
def keywordTypeString : keywordType → String
  | .Unknown => "Unknown"
  | .Name => "Name"
  | .RegisterKeyword => "RegisterKeyword"
  | .StringValue => "StringValue"
  | .CharValue => "CharValue"
  | .BoolValue => "BoolValue"
  | .PositiveInteger => "PositiveInteger"
  | .NegativeInteger => "NegativeInteger"
  | .Decimal => "Decimal"
  | .IncreaseNesting => "IncreaseNesting"
  | .DecreaseNesting => "DecreaseNesting"
  | .Function => "Function"
  | .FunctionReturn => "FunctionReturn"
  | .DropVariable => "DropVariable"
  | .Assignment => "Assignment"
  | .Increment => "Increment"
  | .Decrement => "Decrement"
  | .PlusEquals => "PlusEquals"
  | .MinusEquals => "MinusEquals"
  | .MultiplyEquals => "MultiplyEquals"
  | .DivideEquals => "DivideEquals"
  | .WhileLoop => "WhileLoop"
  | .BreakStatement => "BreakStatement"
  | .ContinueStatement => "ContinueStatement"
  | .IfStatement => "IfStatement"
  | .ElifStatement => "ElifStatement"
  | .ElseStatement => "ElseStatement"
  | .ComparisonSyntax => "ComparisonSyntax"
  | .And => "And"
  | .Or => "Or"
  | .ListSyntax => "ListSyntax"
  | .Import => "Import"
  | .Dereference => "Dereference"
  | .Comment => "Comment"
  | .Newline => "Newline"

/-- `helpers.go` `listIterator` over keywords. -/
structure listIterator where
  currentIndex : Nat
  list : List keyword
  deriving DecidableEq

/-- `helpers.go` `listIterator.next`: increments `currentIndex` unless
it is the index of the last item; the `Bool` reports whether it was
incremented. -/
def listIterator.next (it : listIterator) : listIterator × Bool :=
  if it.currentIndex + 1 < it.list.length then
    (⟨it.currentIndex + 1, it.list⟩, true)
  else (it, false)

/-- `helpers.go` `listIterator.get`.  Go indexes the backing slice and
panics when `currentIndex` is out of bounds, hence the `Option`. -/
def listIterator.get (it : listIterator) : Option keyword :=
  it.list.get? it.currentIndex

/-- `parser.go` `nextNonEmpty`: advances past `Newline` and `Comment`
keywords; on running out of keywords returns `errorMsg` located at the
current keyword.  The loop advances `currentIndex` every iteration, so
`list.length + 1` fuel always suffices and callers pass that. -/
def nextNonEmptyLoop : Nat → listIterator → String →
    Option (listIterator × codeParsingError)
  | 0, _, _ => none
  | fuel + 1, it, errorMsg =>
    let p := listIterator.next it
    if p.2 then
      match listIterator.get p.1 with
      | none => none
      | some k =>
        if k.keywordType ≠ .Newline ∧ k.keywordType ≠ .Comment then
          some (p.1, noError)
        else nextNonEmptyLoop fuel p.1 errorMsg
    else
      match listIterator.get p.1 with
      | none => none
      | some k => some (p.1, ⟨some errorMsg, k.location⟩)

/-- `parser.go` `nextNonEmpty` with the always-sufficient fuel. -/
def nextNonEmpty (it : listIterator) (errorMsg : String) :
    Option (listIterator × codeParsingError) :=
  nextNonEmptyLoop (it.list.length + 1) it errorMsg

/-- The loop of `parser.go` `parseVariableValue`, accumulating the
`variableIsDropped` flag and `pointerDereferenceLayers` of the `out`
struct (`loc` is `out.textLocation`, fixed before the loop).  On the
error paths Go returns the zero `variableValue{}` next to a non-`nil`
error message and no caller reads it; the value slot is `none` there. -/
def parseVariableValueLoop : Nat → listIterator → textLocation → Bool → Nat →
    Option (listIterator × Option rawValue × codeParsingError)
  | 0, _, _, _, _ => none
  | fuel + 1, it, loc, dropped, layers =>
    match listIterator.get it with
    | none => none
    | some k =>
      match k.keywordType with
      | .Name =>
        some (it, some (.variableValue loc ⟨k.contents⟩ dropped layers), noError)
      | .Dereference =>
        match nextNonEmpty it
            "After a keyword of type DropVariable or Dereference, unexpected end of keywords" with
        | none => none
        | some (it₁, e) =>
          if e.msg ≠ none then some (it₁, none, e)
          else parseVariableValueLoop fuel it₁ loc dropped (layers + 1)
      | .DropVariable =>
        if dropped then
          some (it, none, ⟨some "This variable is already dropped", k.location⟩)
        else
          match nextNonEmpty it
              "After a keyword of type DropVariable or Dereference, unexpected end of keywords" with
          | none => none
          | some (it₁, e) =>
            if e.msg ≠ none then some (it₁, none, e)
            else parseVariableValueLoop fuel it₁ loc true layers
      | t =>
        some (it, none,
          ⟨some ("During parsing of variable value: Expected a keyword of type Name, DropVariable, or Dereference. Got a keyword of type " ++
             keywordTypeString t), k.location⟩)

/-- `parser.go` `parseVariableValue`.  Each loop iteration advances
`currentIndex`, so `list.length + 1` fuel always suffices. -/
def parseVariableValue (it : listIterator) :
    Option (listIterator × Option rawValue × codeParsingError) :=
  match listIterator.get it with
  | none => none
  | some k => parseVariableValueLoop (it.list.length + 1) it k.location false 0

/-- `strconv.ParseUint(s, 10, 64)`: digits only, value below `2^64`. -/
def goParseUint64 (s : List Char) : Option Nat :=
  if s = [] then none
  else if s.all Char.isDigit then
    let n := s.foldl (fun acc c => acc * 10 + (c.toNat - 48)) 0
    if n < 2 ^ 64 then some n else none
  else none

/-- `strconv.ParseInt(s, 10, 64)`: optional sign, digits, 64-bit
signed range. -/
def goParseInt64 (s : List Char) : Option Int :=
  match s with
  | [] => none
  | c :: rest =>
    let digits := if c = '-' ∨ c = '+' then rest else s
    if digits = [] then none
    else if digits.all Char.isDigit then
      let n : Nat := digits.foldl (fun acc c => acc * 10 + (c.toNat - 48)) 0
      if c = '-' then
        if n ≤ 2 ^ 63 then some (-(n : Int)) else none
      else if n < 2 ^ 63 then some (n : Int) else none
    else none

/-- Splits a character list at the first character satisfying `p`
(the separator is dropped); `none` when no character matches. -/
def splitFirst (p : Char → Bool) : List Char → List Char × Option (List Char)
  | [] => ([], none)
  | c :: r =>
    if p c then ([], some r)
    else
      let q := splitFirst p r
      (c :: q.1, q.2)

/-- Whether `strconv.ParseFloat(s, 64)` succeeds, modelled on the
plain decimal syntax (optional sign, digits with at most one dot and
at least one digit, optional `e`/`E` exponent); the hex, `inf` and
`nan` forms cannot reach `parseRawValue` from this lexer. -/
def goParseFloatOk (s : List Char) : Bool :=
  let unsigned :=
    match s with
    | c :: r => if c = '-' ∨ c = '+' then r else s
    | [] => s
  let me := splitFirst (fun c => c = 'e' ∨ c = 'E') unsigned
  let mantissaPart := splitFirst (fun c => c = '.') me.1
  let mantissaOk :=
    mantissaPart.1.all Char.isDigit &&
      (match mantissaPart.2 with
       | none => !mantissaPart.1.isEmpty
       | some f =>
         f.all Char.isDigit && !(mantissaPart.1.isEmpty && f.isEmpty))
  let expOk :=
    match me.2 with
    | none => true
    | some ex =>
      let exDigits :=
        match ex with
        | c :: r => if c = '-' ∨ c = '+' then r else ex
        | [] => ex
      !exDigits.isEmpty && exDigits.all Char.isDigit
  mantissaOk && expOk

/-- `parser.go` `parseRawValue`.  The `assert(eq(err, nil))` calls
after `strconv` parses, and the quote asserts plus the possibly
out-of-range slice of the `CharValue`/`StringValue` cases, are panics,
hence `none`. -/
def parseRawValue (it : listIterator) :
    Option (listIterator × Option rawValue × codeParsingError) :=
  match listIterator.get it with
  | none => none
  | some k =>
    match k.keywordType with
    | .Name => parseVariableValue it
    | .DropVariable => parseVariableValue it
    | .Dereference => parseVariableValue it
    | .PositiveInteger =>
      match goParseUint64 k.contents with
      | none => none
      | some n => some (it, some (.uintValue k.location n), noError)
    | .NegativeInteger =>
      match goParseInt64 k.contents with
      | none => none
      | some n => some (it, some (.intValue k.location n), noError)
    | .Decimal =>
      if goParseFloatOk k.contents then
        some (it, some (.floatValue k.location ⟨k.contents⟩), noError)
      else none
    | .CharValue =>
      if 2 ≤ k.contents.length ∧ k.contents.head? = some singleQuoteChar ∧
          k.contents.getLast? = some singleQuoteChar then
        some (it, some (.characterValue k.location ⟨(k.contents.drop 1).dropLast⟩),
          noError)
      else none
    | .StringValue =>
      if 2 ≤ k.contents.length ∧ k.contents.head? = some doubleQuoteChar ∧
          k.contents.getLast? = some doubleQuoteChar then
        some (it, some (.stringValue k.location ⟨(k.contents.drop 1).dropLast⟩),
          noError)
      else none
    | t =>
      some (it, none,
        ⟨some ("While parsing raw value, unexpected keyword type " ++
           keywordTypeString t ++
           " expecting a keyword of type Name, Decimal, NegativeInteger, PositiveInteger, FloatNumber, StringValue, CharValue, Dereference, or DropVariable"),
         k.location⟩)

/-- The `comparisonType` bookkeeping of `parser.go` `parseComparison`
(lines 686-711): on the first iteration (`comparisonType == 0`) the
comparator's first byte becomes the new `comparisonType`, with a panic
unless it is `=`, `!`, `<` or `>`; afterwards a differing first byte is
the chain-mismatch error and a repeated `!` the chained-`!` error.
`.inl` carries the error return, `.inr` the `comparisonType` to keep. -/
def checkComparisonType (comparisonType : Nat) (ck : keyword) :
    Option (codeParsingError ⊕ Nat) :=
  match ck.contents with
  | [] => none
  | c :: _ =>
    if comparisonType = 0 then
      if c = '=' ∨ c = '!' ∨ c = '<' ∨ c = '>' then some (.inr c.toNat)
      else none
    else
      if comparisonType ≠ c.toNat then
        some (.inl ⟨some "Expecting comparisons in greatness chain to match", ck.location⟩)
      else if comparisonType = 33 then
        some (.inl ⟨some "You cannot chain comparisons of type !", ck.location⟩)
      else some (.inr comparisonType)

/-- The `switch comparisonKeyword.contents` of `parseComparison`
mapping comparator spellings to `comparisonOperation`s. -/
def comparisonOpOfContents (contents : List Char) : comparisonOperation :=
  if contents = str ">" then .GreaterThan
  else if contents = str "<" then .LessThan
  else if contents = str ">=" then .GreaterThanOrEqual
  else if contents = str "<=" then .LessThanOrEqual
  else if contents = str "==" then .Equal
  else if contents = str "!=" then .NotEqual
  else .UnknownComparisonOperation

/-- The `for true` loop of `parser.go` `parseComparison`.  Each
iteration that recurses has advanced `currentIndex` by at least two,
so `list.length + 1` fuel always suffices.  The iterator is not
re-wound between iterations: the second operand of one comparison is
re-parsed as the first operand of the next. -/
def parseComparisonLoop : Nat → listIterator → Nat → List condition →
    List keyword → Option (listIterator × Option condition × codeParsingError)
  | 0, _, _, _, _ => none
  | fuel + 1, it, comparisonType, unchainedComparisons, keywordList =>
    match parseRawValue it with
    | none => none
    | some (it₁, firstArg?, e₁) =>
      if e₁.msg ≠ none then some (it₁, none, e₁)
      else
        match firstArg? with
        | none => none
        | some comparisonFirstArg =>
          let p := listIterator.next it₁
          if p.2 = false then
            if p.1.currentIndex = 0 then
              match listIterator.get p.1 with
              | none => none
              | some k =>
                some (p.1, none,
                  ⟨some "Unexpected end of comparison, expecting either >, >=, <, <=, ==, or !=",
                   k.location⟩)
            else
              match unchainedComparisons with
              | [c] => some (p.1, some c, noError)
              | _ =>
                match keywordList with
                | [] => none
                | k₀ :: _ =>
                  some (p.1,
                    some (.boolean k₀.location true unchainedComparisons), noError)
          else
            match listIterator.get p.1 with
            | none => none
            | some comparisonKeyword =>
              if comparisonKeyword.keywordType ≠ .ComparisonSyntax then
                some (p.1, none,
                  ⟨some ("Expecting a keyword of type ComparisonSyntax (==, !=, >, <, >=, <=), got a keyword of type " ++
                     keywordTypeString comparisonKeyword.keywordType ++ "."),
                   comparisonKeyword.location⟩)
              else
                match checkComparisonType comparisonType comparisonKeyword with
                | none => none
                | some (.inl e) => some (p.1, none, e)
                | some (.inr newComparisonType) =>
                  match nextNonEmpty p.1
                      ("During parsing of comparison, after `" ++
                        (⟨comparisonKeyword.contents⟩ : String) ++
                        "`, unexpected end of keywords. Expected a value.") with
                  | none => none
                  | some (it₂, e₂) =>
                    if e₂.msg ≠ none then some (it₂, none, e₂)
                    else
                      match parseRawValue it₂ with
                      | none => none
                      | some (it₃, secondArg?, e₃) =>
                        if e₃.msg ≠ none then some (it₃, none, e₃)
                        else
                          match secondArg? with
                          | none => none
                          | some comparisonSecondArg =>
                            parseComparisonLoop fuel it₃ newComparisonType
                              (unchainedComparisons ++
                                [.comparison comparisonKeyword.location
                                  (comparisonOpOfContents comparisonKeyword.contents)
                                  comparisonFirstArg comparisonSecondArg])
                              keywordList

/-- `parser.go` `parseComparison`.  The leading
`assert(greaterThan(len(keywordList), 0))` is a panic on the empty
list. -/
def parseComparison (keywordList : List keyword) :
    Option (Option condition × codeParsingError) :=
  if keywordList.length = 0 then none
  else
    match parseComparisonLoop (keywordList.length + 1) ⟨0, keywordList⟩ 0 []
        keywordList with
    | none => none
    | some (_, c, e) => some (c, e)

/-- A chained comparison as a keyword list: the first operand followed
by comparator/operand pairs. -/
def mkChain (first : keyword) : List (keyword × keyword) → List keyword
  | [] => [first]
  | (c, b) :: rest => first :: c :: mkChain b rest

/-- The pairwise `comparison` nodes `parseComparison` accumulates in
`unchainedComparisons` for a chain of `Name` operands. -/
def pairwiseComparisons (first : keyword) :
    List (keyword × keyword) → List condition
  | [] => []
  | (c, b) :: rest =>
    .comparison c.location (comparisonOpOfContents c.contents)
        (.variableValue first.location ⟨first.contents⟩ false 0)
        (.variableValue b.location ⟨b.contents⟩ false 0) ::
      pairwiseComparisons b rest

/-- The `condition` returned at the end of a successful
`parseComparison` run, from `keywordList[0]` and the accumulated
`unchainedComparisons`: a single comparison stays a `comparison`, any
other length becomes `boolean` with `isAndInsteadOfOr` set. -/
def chainResult (k₀ : keyword) (l : List condition) : Option condition :=
  match l with
  | [c] => some c
  | l => some (.boolean k₀.location true l)

/-! ## Theorems -/

theorem resolveSentinels_nil (f : Nat) (st : compilerState) (acc ret : List Char)
    (q : Bool) (hf : 1 ≤ f) :
    resolveSentinels f st acc [] q ret = some (st, acc) := by
  match f, hf with
  | f + 1, _ => rfl

theorem resolveSentinels_clean (seg : List Char) (hseg : cleanSeg seg) :
    ∀ (b : Nat) (st : compilerState) (acc rest ret : List Char)
      (R : compilerState × List Char),
      (∀ f, b ≤ f → resolveSentinels f st (acc ++ seg) rest false ret = some R) →
      ∀ f, b + seg.length ≤ f →
        resolveSentinels f st acc (seg ++ rest) false ret = some R := by
  induction seg with
  | nil =>
    intro b st acc rest ret R hcont f hf
    simpa using hcont f (by simpa using hf)
  | cons c seg ih =>
    intro b st acc rest ret R hcont f hf
    obtain ⟨h1, h2, h3⟩ := hseg c (by simp)
    match f, hf with
    | f + 1, hf =>
      show resolveSentinels (f + 1) st acc (c :: (seg ++ rest)) false ret = some R
      unfold resolveSentinels
      simp only [h1, h2, h3, if_neg, if_false, Bool.false_eq_true, ite_false]
      have := ih (fun d hd => hseg d (by simp [hd])) b st (acc ++ [c]) rest ret R
        (by intro g hg; simpa [List.append_assoc] using hcont g hg) f
        (by simp at hf; omega)
      simpa [List.append_assoc] using this

theorem resolveSentinels_backslash (b : Nat) (st : compilerState)
    (acc rest ret : List Char) (R : compilerState × List Char)
    (hcont : ∀ f, b ≤ f →
      resolveSentinels f st (acc ++ (ret ++ rest).take 1) ((ret ++ rest).drop 1)
        false ret = some R) :
    ∀ f, b + 1 ≤ f →
      resolveSentinels f st acc (backslashChar :: rest) false ret = some R := by
  intro f hf
  match f, hf with
  | f + 1, hf =>
    have hb1 : ¬(backslashChar = singleQuoteChar) := by decide
    have hb2 : ¬(backslashChar = '/') := by decide
    unfold resolveSentinels
    simp only [hb1, hb2, Bool.false_eq_true, if_false, ite_false, ite_true,
      eq_self_iff_true, if_true]
    exact hcont f (by omega)

theorem mapLookup_append (mpre mpost : List (String × compiledFunction))
    (n : String) (v : compiledFunction) (h : ∀ p ∈ mpre, p.1 ≠ n) :
    mapLookup (mpre ++ (n, v) :: mpost) n = some v := by
  induction mpre with
  | nil => simp [mapLookup]
  | cons p rest ih =>
    unfold mapLookup
    simp only [List.cons_append]
    rw [if_neg (h p (by simp))]
    exact ih (fun q hq => h q (by simp [hq]))

theorem mapStore_append (mpre mpost : List (String × compiledFunction))
    (n : String) (v₀ v : compiledFunction) (h : ∀ p ∈ mpre, p.1 ≠ n) :
    mapStore (mpre ++ (n, v₀) :: mpost) n v = mpre ++ (n, v) :: mpost := by
  induction mpre with
  | nil => simp [mapStore]
  | cons p rest ih =>
    unfold mapStore
    simp only [List.cons_append]
    rw [if_neg (h p (by simp))]
    rw [ih (fun q hq => h q (by simp [hq]))]

theorem transformFunctionDefinition_step (b : Nat) (st : compilerState)
    (name : String) (fd : compiledFunction) (ret : List Char)
    (st₂ : compilerState) (final : List Char)
    (hlook : mapLookup st.compiledFunctions name = some fd)
    (hlbl : fd.jumpLabel = "")
    (hmain : name ≠ "main")
    (hscan : ∀ f, b ≤ f →
      resolveSentinels f
        ⟨st.numberOfJumps + 1, st.numberOfItemsInDataSection, st.dataSection,
         mapStore st.compiledFunctions name
           ⟨fd.references, "jumpLabel" ++ toString (st.numberOfJumps + 1),
            fd.assembly⟩⟩
        []
        ('\n' :: str ("jumpLabel" ++ toString (st.numberOfJumps + 1)) ++
          ':' :: fd.assembly)
        false ret = some (st₂, final)) :
    ∀ f, b + 1 ≤ f →
      transformFunctionDefinitionIntoValidAssembly f st name ret =
        some ⟨st₂.numberOfJumps, st₂.numberOfItemsInDataSection, st₂.dataSection,
          mapStore st₂.compiledFunctions name
            ⟨fd.references, "jumpLabel" ++ toString (st.numberOfJumps + 1),
             final⟩⟩ := by
  intro f hf
  match f, hf with
  | f + 1, hf =>
    unfold transformFunctionDefinitionIntoValidAssembly
    rw [hlook]
    simp only [hlbl, hmain, createNewJumpLabel, ne_eq, not_true_eq_false,
      not_false_eq_true, if_false, ite_false, if_true, ite_true,
      reduceCtorEq]
    rw [hscan f (by omega)]

theorem getAssemblyForFunctionCall_inline (b : Nat) (st : compilerState)
    (name : String) (fd : compiledFunction) (st₂ : compilerState)
    (fd₂ : compiledFunction)
    (hlook : mapLookup st.compiledFunctions name = some fd)
    (hrefs : fd.references = 1)
    (htr : ∀ f, b ≤ f →
      transformFunctionDefinitionIntoValidAssembly f
        ⟨st.numberOfJumps + 1, st.numberOfItemsInDataSection, st.dataSection,
         st.compiledFunctions⟩ name
        (str ("jmp " ++ ("jumpLabel" ++ toString (st.numberOfJumps + 1)))) =
        some st₂)
    (hlook₂ : mapLookup st₂.compiledFunctions name = some fd₂) :
    ∀ f, b + 1 ≤ f →
      getAssemblyForFunctionCall f st name =
        some (st₂, "jmp " ++ fd₂.jumpLabel ++ "\n" ++
          ("jumpLabel" ++ toString (st.numberOfJumps + 1)) ++ ":") := by
  intro f hf
  match f, hf with
  | f + 1, hf =>
    unfold getAssemblyForFunctionCall
    rw [hlook]
    simp only [Option.map_some', Option.getD_some, hrefs, createNewJumpLabel,
      one_ne_zero, if_false, ite_false, if_true, ite_true, reduceIte]
    rw [htr f (by omega)]
    simp [hlook₂]

theorem getAssemblyForFunctionCall_call (b : Nat) (st : compilerState)
    (name : String) (fd : compiledFunction) (st₁ : compilerState)
    (fd₁ : compiledFunction)
    (hlook : mapLookup st.compiledFunctions name = some fd)
    (hrefs : 2 ≤ fd.references)
    (htr : ∀ f, b ≤ f →
      transformFunctionDefinitionIntoValidAssembly f st name (str "ret") =
        some st₁)
    (hlook₁ : mapLookup st₁.compiledFunctions name = some fd₁) :
    ∀ f, b + 1 ≤ f →
      getAssemblyForFunctionCall f st name =
        some (st₁, "call " ++ fd₁.jumpLabel) := by
  intro f hf
  match f, hf with
  | f + 1, hf =>
    unfold getAssemblyForFunctionCall
    rw [hlook]
    simp only [Option.map_some', Option.getD_some]
    rw [if_neg (by omega), if_neg (by omega)]
    rw [htr f (by omega)]
    simp [hlook₁]

theorem getAssemblyForFunctionCall_uniqueReference (j njd : Nat) (ds : String)
    (mpre mpost : List (String × compiledFunction)) (n : String)
    (calleePre calleePost : List Char)
    (hnot : ∀ p ∈ mpre, p.1 ≠ n)
    (hmain : n ≠ "main")
    (hcpre : cleanSeg calleePre) (hcpost : cleanSeg calleePost)
    (hcl1 : cleanSeg (str ("jumpLabel" ++ toString (j + 1))))
    (hcl2 : cleanSeg (str ("jumpLabel" ++ toString (j + 2)))) :
    ∀ f, calleePre.length + calleePost.length +
        (str ("jumpLabel" ++ toString (j + 1))).length +
        (str ("jumpLabel" ++ toString (j + 2))).length + 16 ≤ f →
      getAssemblyForFunctionCall f
        ⟨j, njd, ds,
         mpre ++ (n, ⟨1, "", calleePre ++ backslashChar :: calleePost⟩) :: mpost⟩
        n =
      some (⟨j + 2, njd, ds,
          mpre ++ (n, ⟨1, "jumpLabel" ++ toString (j + 2),
            '\n' :: str ("jumpLabel" ++ toString (j + 2)) ++ ':' :: calleePre ++
              str ("jmp " ++ ("jumpLabel" ++ toString (j + 1))) ++
              calleePost⟩) :: mpost⟩,
        "jmp " ++ ("jumpLabel" ++ toString (j + 2)) ++ "\n" ++
          ("jumpLabel" ++ toString (j + 1)) ++ ":") := by
  intro f hf
  -- abbreviations
  have hret : str ("jmp " ++ ("jumpLabel" ++ toString (j + 1))) =
      'j' :: 'm' :: 'p' :: ' ' :: str ("jumpLabel" ++ toString (j + 1)) := by
    simp [str, String.data_append]
  -- the callee entry before the pass
  have hM : mapLookup
      (mpre ++ (n, ⟨1, "", calleePre ++ backslashChar :: calleePost⟩) :: mpost) n =
      some ⟨1, "", calleePre ++ backslashChar :: calleePost⟩ :=
    mapLookup_append mpre mpost n _ hnot
  -- (1) the scan of the callee body: the tail after the substituted byte
  have s0 : ∀ g, 1 +
      ('m' :: 'p' :: ' ' :: (str ("jumpLabel" ++ toString (j + 1)) ++ calleePost)).length ≤ g →
      resolveSentinels g
        ⟨j + 2, njd, ds,
         mapStore
           (mpre ++ (n, ⟨1, "", calleePre ++ backslashChar :: calleePost⟩) :: mpost) n
           ⟨1, "jumpLabel" ++ toString (j + 2), calleePre ++ backslashChar :: calleePost⟩⟩
        ((([] ++ ('\n' :: str ("jumpLabel" ++ toString (j + 2)) ++ ':' :: calleePre)) ++ ['j']))
        (('m' :: 'p' :: ' ' :: (str ("jumpLabel" ++ toString (j + 1)) ++ calleePost)) ++ [])
        false (str ("jmp " ++ ("jumpLabel" ++ toString (j + 1)))) =
      some (⟨j + 2, njd, ds,
         mapStore
           (mpre ++ (n, ⟨1, "", calleePre ++ backslashChar :: calleePost⟩) :: mpost) n
           ⟨1, "jumpLabel" ++ toString (j + 2), calleePre ++ backslashChar :: calleePost⟩⟩,
        ((([] ++ ('\n' :: str ("jumpLabel" ++ toString (j + 2)) ++ ':' :: calleePre)) ++ ['j'])) ++
          ('m' :: 'p' :: ' ' :: (str ("jumpLabel" ++ toString (j + 1)) ++ calleePost))) := by
    apply resolveSentinels_clean
    · intro c hc
      simp only [List.mem_cons, List.mem_append] at hc
      rcases hc with h | h | h | h
      · subst h; decide
      · subst h; decide
      · subst h; decide
      · rcases h with h | h
        · exact hcl1 c h
        · exact hcpost c h
    · intro g hg
      exact resolveSentinels_nil g _ _ _ _ hg
  -- (2) the backslash substitution step
  have s1 : ∀ g, (1 +
      ('m' :: 'p' :: ' ' :: (str ("jumpLabel" ++ toString (j + 1)) ++ calleePost)).length) + 1 ≤ g →
      resolveSentinels g
        ⟨j + 2, njd, ds,
         mapStore
           (mpre ++ (n, ⟨1, "", calleePre ++ backslashChar :: calleePost⟩) :: mpost) n
           ⟨1, "jumpLabel" ++ toString (j + 2), calleePre ++ backslashChar :: calleePost⟩⟩
        ([] ++ ('\n' :: str ("jumpLabel" ++ toString (j + 2)) ++ ':' :: calleePre))
        (backslashChar :: calleePost)
        false (str ("jmp " ++ ("jumpLabel" ++ toString (j + 1)))) =
      some (⟨j + 2, njd, ds,
         mapStore
           (mpre ++ (n, ⟨1, "", calleePre ++ backslashChar :: calleePost⟩) :: mpost) n
           ⟨1, "jumpLabel" ++ toString (j + 2), calleePre ++ backslashChar :: calleePost⟩⟩,
        ((([] ++ ('\n' :: str ("jumpLabel" ++ toString (j + 2)) ++ ':' :: calleePre)) ++ ['j'])) ++
          ('m' :: 'p' :: ' ' :: (str ("jumpLabel" ++ toString (j + 1)) ++ calleePost))) := by
    apply resolveSentinels_backslash
    intro g hg
    have := s0 g hg
    simpa [hret, List.append_assoc] using this
  -- (3) the clean scan up to the backslash
  have s2 : ∀ g, ((1 +
      ('m' :: 'p' :: ' ' :: (str ("jumpLabel" ++ toString (j + 1)) ++ calleePost)).length) + 1) +
      ('\n' :: str ("jumpLabel" ++ toString (j + 2)) ++ ':' :: calleePre).length ≤ g →
      resolveSentinels g
        ⟨j + 2, njd, ds,
         mapStore
           (mpre ++ (n, ⟨1, "", calleePre ++ backslashChar :: calleePost⟩) :: mpost) n
           ⟨1, "jumpLabel" ++ toString (j + 2), calleePre ++ backslashChar :: calleePost⟩⟩
        []
        (('\n' :: str ("jumpLabel" ++ toString (j + 2)) ++ ':' :: calleePre) ++
          backslashChar :: calleePost)
        false (str ("jmp " ++ ("jumpLabel" ++ toString (j + 1)))) =
      some (⟨j + 2, njd, ds,
         mapStore
           (mpre ++ (n, ⟨1, "", calleePre ++ backslashChar :: calleePost⟩) :: mpost) n
           ⟨1, "jumpLabel" ++ toString (j + 2), calleePre ++ backslashChar :: calleePost⟩⟩,
        ((([] ++ ('\n' :: str ("jumpLabel" ++ toString (j + 2)) ++ ':' :: calleePre)) ++ ['j'])) ++
          ('m' :: 'p' :: ' ' :: (str ("jumpLabel" ++ toString (j + 1)) ++ calleePost))) := by
    apply resolveSentinels_clean
    · intro c hc
      simp only [List.mem_cons, List.mem_append] at hc
      rcases hc with (rfl | h) | (rfl | h)
      · decide
      · exact hcl2 c h
      · decide
      · exact hcpre c h
    · exact s1
  -- (4) the full scan of the labelled callee body
  have hscan : ∀ g, ((1 +
      ('m' :: 'p' :: ' ' :: (str ("jumpLabel" ++ toString (j + 1)) ++ calleePost)).length) + 1) +
      ('\n' :: str ("jumpLabel" ++ toString (j + 2)) ++ ':' :: calleePre).length ≤ g →
      resolveSentinels g
        ⟨j + 2, njd, ds,
         mapStore
           (mpre ++ (n, ⟨1, "", calleePre ++ backslashChar :: calleePost⟩) :: mpost) n
           ⟨1, "jumpLabel" ++ toString (j + 2), calleePre ++ backslashChar :: calleePost⟩⟩
        []
        ('\n' :: str ("jumpLabel" ++ toString (j + 2)) ++
          ':' :: (calleePre ++ backslashChar :: calleePost))
        false (str ("jmp " ++ ("jumpLabel" ++ toString (j + 1)))) =
      some (⟨j + 2, njd, ds,
         mapStore
           (mpre ++ (n, ⟨1, "", calleePre ++ backslashChar :: calleePost⟩) :: mpost) n
           ⟨1, "jumpLabel" ++ toString (j + 2), calleePre ++ backslashChar :: calleePost⟩⟩,
        ((([] ++ ('\n' :: str ("jumpLabel" ++ toString (j + 2)) ++ ':' :: calleePre)) ++ ['j'])) ++
          ('m' :: 'p' :: ' ' :: (str ("jumpLabel" ++ toString (j + 1)) ++ calleePost))) := by
    intro g hg
    have hrem : ('\n' :: str ("jumpLabel" ++ toString (j + 2)) ++
        ':' :: (calleePre ++ backslashChar :: calleePost)) =
        ('\n' :: str ("jumpLabel" ++ toString (j + 2)) ++ ':' :: calleePre) ++
          backslashChar :: calleePost := by
      simp [List.append_assoc]
    rw [hrem]
    exact s2 g hg
  -- (5) the recursive finalization of the callee
  have htr := transformFunctionDefinition_step
    (((1 + ('m' :: 'p' :: ' ' :: (str ("jumpLabel" ++ toString (j + 1)) ++ calleePost)).length) + 1) +
      ('\n' :: str ("jumpLabel" ++ toString (j + 2)) ++ ':' :: calleePre).length)
    ⟨j + 1, njd, ds,
     mpre ++ (n, ⟨1, "", calleePre ++ backslashChar :: calleePost⟩) :: mpost⟩
    n ⟨1, "", calleePre ++ backslashChar :: calleePost⟩
    (str ("jmp " ++ ("jumpLabel" ++ toString (j + 1))))
    ⟨j + 2, njd, ds,
     mapStore
       (mpre ++ (n, ⟨1, "", calleePre ++ backslashChar :: calleePost⟩) :: mpost) n
       ⟨1, "jumpLabel" ++ toString (j + 2), calleePre ++ backslashChar :: calleePost⟩⟩
    (((([] ++ ('\n' :: str ("jumpLabel" ++ toString (j + 2)) ++ ':' :: calleePre)) ++ ['j'])) ++
      ('m' :: 'p' :: ' ' :: (str ("jumpLabel" ++ toString (j + 1)) ++ calleePost)))
    hM rfl hmain hscan
  -- (6) the call-site code
  have hstore1 : mapStore
      (mpre ++ (n, ⟨1, "", calleePre ++ backslashChar :: calleePost⟩) :: mpost) n
      ⟨1, "jumpLabel" ++ toString (j + 2), calleePre ++ backslashChar :: calleePost⟩ =
      mpre ++ (n, ⟨1, "jumpLabel" ++ toString (j + 2),
        calleePre ++ backslashChar :: calleePost⟩) :: mpost :=
    mapStore_append mpre mpost n _ _ hnot
  have hfinal := getAssemblyForFunctionCall_inline
    ((((1 + ('m' :: 'p' :: ' ' :: (str ("jumpLabel" ++ toString (j + 1)) ++ calleePost)).length) + 1) +
      ('\n' :: str ("jumpLabel" ++ toString (j + 2)) ++ ':' :: calleePre).length) + 1)
    ⟨j, njd, ds,
     mpre ++ (n, ⟨1, "", calleePre ++ backslashChar :: calleePost⟩) :: mpost⟩
    n ⟨1, "", calleePre ++ backslashChar :: calleePost⟩
    ⟨j + 2, njd, ds,
     mapStore
       (mapStore
         (mpre ++ (n, ⟨1, "", calleePre ++ backslashChar :: calleePost⟩) :: mpost) n
         ⟨1, "jumpLabel" ++ toString (j + 2), calleePre ++ backslashChar :: calleePost⟩) n
       ⟨1, "jumpLabel" ++ toString (j + 2),
        ((([] ++ ('\n' :: str ("jumpLabel" ++ toString (j + 2)) ++ ':' :: calleePre)) ++ ['j'])) ++
          ('m' :: 'p' :: ' ' :: (str ("jumpLabel" ++ toString (j + 1)) ++ calleePost))⟩⟩
    ⟨1, "jumpLabel" ++ toString (j + 2),
     ((([] ++ ('\n' :: str ("jumpLabel" ++ toString (j + 2)) ++ ':' :: calleePre)) ++ ['j'])) ++
       ('m' :: 'p' :: ' ' :: (str ("jumpLabel" ++ toString (j + 1)) ++ calleePost))⟩
    hM rfl htr ?hlook2 f ?hbound
  case hlook2 =>
    rw [hstore1]
    rw [mapStore_append mpre mpost n _ _ hnot]
    exact mapLookup_append mpre mpost n _ hnot
  case hbound =>
    simp only [List.length_cons, List.length_append]
    omega
  rw [hfinal]
  rw [hstore1]
  rw [mapStore_append mpre mpost n _ _ hnot]
  simp [hret, List.append_assoc]

theorem getAssemblyForFunctionCall_multiReference (j njd : Nat) (ds : String)
    (mpre mpost : List (String × compiledFunction)) (n : String) (refs : Nat)
    (calleePre calleePost : List Char)
    (hnot : ∀ p ∈ mpre, p.1 ≠ n)
    (hmain : n ≠ "main")
    (hrefs : 2 ≤ refs)
    (hcpre : cleanSeg calleePre) (hcpost : cleanSeg calleePost)
    (hcl1 : cleanSeg (str ("jumpLabel" ++ toString (j + 1)))) :
    ∀ f, calleePre.length + calleePost.length +
        (str ("jumpLabel" ++ toString (j + 1))).length + 16 ≤ f →
      getAssemblyForFunctionCall f
        ⟨j, njd, ds,
         mpre ++ (n, ⟨refs, "", calleePre ++ backslashChar :: calleePost⟩) :: mpost⟩
        n =
      some (⟨j + 1, njd, ds,
          mpre ++ (n, ⟨refs, "jumpLabel" ++ toString (j + 1),
            '\n' :: str ("jumpLabel" ++ toString (j + 1)) ++ ':' :: calleePre ++
              str "ret" ++ calleePost⟩) :: mpost⟩,
        "call " ++ ("jumpLabel" ++ toString (j + 1))) := by
  intro f hf
  have hM : mapLookup
      (mpre ++ (n, ⟨refs, "", calleePre ++ backslashChar :: calleePost⟩) :: mpost) n =
      some ⟨refs, "", calleePre ++ backslashChar :: calleePost⟩ :=
    mapLookup_append mpre mpost n _ hnot
  have s0 : ∀ g, 1 + ('e' :: 't' :: calleePost).length ≤ g →
      resolveSentinels g
        ⟨j + 1, njd, ds,
         mapStore
           (mpre ++ (n, ⟨refs, "", calleePre ++ backslashChar :: calleePost⟩) :: mpost) n
           ⟨refs, "jumpLabel" ++ toString (j + 1), calleePre ++ backslashChar :: calleePost⟩⟩
        (([] ++ ('\n' :: str ("jumpLabel" ++ toString (j + 1)) ++ ':' :: calleePre)) ++ ['r'])
        (('e' :: 't' :: calleePost) ++ [])
        false (str "ret") =
      some (⟨j + 1, njd, ds,
         mapStore
           (mpre ++ (n, ⟨refs, "", calleePre ++ backslashChar :: calleePost⟩) :: mpost) n
           ⟨refs, "jumpLabel" ++ toString (j + 1), calleePre ++ backslashChar :: calleePost⟩⟩,
        ((([] ++ ('\n' :: str ("jumpLabel" ++ toString (j + 1)) ++ ':' :: calleePre)) ++ ['r'])) ++
          ('e' :: 't' :: calleePost)) := by
    apply resolveSentinels_clean
    · intro c hc
      simp only [List.mem_cons] at hc
      rcases hc with rfl | rfl | h
      · decide
      · decide
      · exact hcpost c h
    · intro g hg
      exact resolveSentinels_nil g _ _ _ _ hg
  have s1 : ∀ g, (1 + ('e' :: 't' :: calleePost).length) + 1 ≤ g →
      resolveSentinels g
        ⟨j + 1, njd, ds,
         mapStore
           (mpre ++ (n, ⟨refs, "", calleePre ++ backslashChar :: calleePost⟩) :: mpost) n
           ⟨refs, "jumpLabel" ++ toString (j + 1), calleePre ++ backslashChar :: calleePost⟩⟩
        ([] ++ ('\n' :: str ("jumpLabel" ++ toString (j + 1)) ++ ':' :: calleePre))
        (backslashChar :: calleePost)
        false (str "ret") =
      some (⟨j + 1, njd, ds,
         mapStore
           (mpre ++ (n, ⟨refs, "", calleePre ++ backslashChar :: calleePost⟩) :: mpost) n
           ⟨refs, "jumpLabel" ++ toString (j + 1), calleePre ++ backslashChar :: calleePost⟩⟩,
        ((([] ++ ('\n' :: str ("jumpLabel" ++ toString (j + 1)) ++ ':' :: calleePre)) ++ ['r'])) ++
          ('e' :: 't' :: calleePost)) := by
    apply resolveSentinels_backslash
    intro g hg
    simpa using s0 g hg
  have s2 : ∀ g, ((1 + ('e' :: 't' :: calleePost).length) + 1) +
      ('\n' :: str ("jumpLabel" ++ toString (j + 1)) ++ ':' :: calleePre).length ≤ g →
      resolveSentinels g
        ⟨j + 1, njd, ds,
         mapStore
           (mpre ++ (n, ⟨refs, "", calleePre ++ backslashChar :: calleePost⟩) :: mpost) n
           ⟨refs, "jumpLabel" ++ toString (j + 1), calleePre ++ backslashChar :: calleePost⟩⟩
        []
        (('\n' :: str ("jumpLabel" ++ toString (j + 1)) ++ ':' :: calleePre) ++
          backslashChar :: calleePost)
        false (str "ret") =
      some (⟨j + 1, njd, ds,
         mapStore
           (mpre ++ (n, ⟨refs, "", calleePre ++ backslashChar :: calleePost⟩) :: mpost) n
           ⟨refs, "jumpLabel" ++ toString (j + 1), calleePre ++ backslashChar :: calleePost⟩⟩,
        ((([] ++ ('\n' :: str ("jumpLabel" ++ toString (j + 1)) ++ ':' :: calleePre)) ++ ['r'])) ++
          ('e' :: 't' :: calleePost)) := by
    apply resolveSentinels_clean
    · intro c hc
      simp only [List.mem_cons, List.mem_append] at hc
      rcases hc with (rfl | h) | (rfl | h)
      · decide
      · exact hcl1 c h
      · decide
      · exact hcpre c h
    · exact s1
  have hscan : ∀ g, ((1 + ('e' :: 't' :: calleePost).length) + 1) +
      ('\n' :: str ("jumpLabel" ++ toString (j + 1)) ++ ':' :: calleePre).length ≤ g →
      resolveSentinels g
        ⟨j + 1, njd, ds,
         mapStore
           (mpre ++ (n, ⟨refs, "", calleePre ++ backslashChar :: calleePost⟩) :: mpost) n
           ⟨refs, "jumpLabel" ++ toString (j + 1), calleePre ++ backslashChar :: calleePost⟩⟩
        []
        ('\n' :: str ("jumpLabel" ++ toString (j + 1)) ++
          ':' :: (calleePre ++ backslashChar :: calleePost))
        false (str "ret") =
      some (⟨j + 1, njd, ds,
         mapStore
           (mpre ++ (n, ⟨refs, "", calleePre ++ backslashChar :: calleePost⟩) :: mpost) n
           ⟨refs, "jumpLabel" ++ toString (j + 1), calleePre ++ backslashChar :: calleePost⟩⟩,
        ((([] ++ ('\n' :: str ("jumpLabel" ++ toString (j + 1)) ++ ':' :: calleePre)) ++ ['r'])) ++
          ('e' :: 't' :: calleePost)) := by
    intro g hg
    have hrem : ('\n' :: str ("jumpLabel" ++ toString (j + 1)) ++
        ':' :: (calleePre ++ backslashChar :: calleePost)) =
        ('\n' :: str ("jumpLabel" ++ toString (j + 1)) ++ ':' :: calleePre) ++
          backslashChar :: calleePost := by
      simp [List.append_assoc]
    rw [hrem]
    exact s2 g hg
  have htr := transformFunctionDefinition_step
    (((1 + ('e' :: 't' :: calleePost).length) + 1) +
      ('\n' :: str ("jumpLabel" ++ toString (j + 1)) ++ ':' :: calleePre).length)
    ⟨j, njd, ds,
     mpre ++ (n, ⟨refs, "", calleePre ++ backslashChar :: calleePost⟩) :: mpost⟩
    n ⟨refs, "", calleePre ++ backslashChar :: calleePost⟩
    (str "ret")
    ⟨j + 1, njd, ds,
     mapStore
       (mpre ++ (n, ⟨refs, "", calleePre ++ backslashChar :: calleePost⟩) :: mpost) n
       ⟨refs, "jumpLabel" ++ toString (j + 1), calleePre ++ backslashChar :: calleePost⟩⟩
    (((([] ++ ('\n' :: str ("jumpLabel" ++ toString (j + 1)) ++ ':' :: calleePre)) ++ ['r'])) ++
      ('e' :: 't' :: calleePost))
    hM rfl hmain hscan
  have hstore1 : mapStore
      (mpre ++ (n, ⟨refs, "", calleePre ++ backslashChar :: calleePost⟩) :: mpost) n
      ⟨refs, "jumpLabel" ++ toString (j + 1), calleePre ++ backslashChar :: calleePost⟩ =
      mpre ++ (n, ⟨refs, "jumpLabel" ++ toString (j + 1),
        calleePre ++ backslashChar :: calleePost⟩) :: mpost :=
    mapStore_append mpre mpost n _ _ hnot
  have hfinal := getAssemblyForFunctionCall_call
    ((((1 + ('e' :: 't' :: calleePost).length) + 1) +
      ('\n' :: str ("jumpLabel" ++ toString (j + 1)) ++ ':' :: calleePre).length) + 1)
    ⟨j, njd, ds,
     mpre ++ (n, ⟨refs, "", calleePre ++ backslashChar :: calleePost⟩) :: mpost⟩
    n ⟨refs, "", calleePre ++ backslashChar :: calleePost⟩
    ⟨j + 1, njd, ds,
     mapStore
       (mapStore
         (mpre ++ (n, ⟨refs, "", calleePre ++ backslashChar :: calleePost⟩) :: mpost) n
         ⟨refs, "jumpLabel" ++ toString (j + 1), calleePre ++ backslashChar :: calleePost⟩) n
       ⟨refs, "jumpLabel" ++ toString (j + 1),
        ((([] ++ ('\n' :: str ("jumpLabel" ++ toString (j + 1)) ++ ':' :: calleePre)) ++ ['r'])) ++
          ('e' :: 't' :: calleePost)⟩⟩
    ⟨refs, "jumpLabel" ++ toString (j + 1),
     ((([] ++ ('\n' :: str ("jumpLabel" ++ toString (j + 1)) ++ ':' :: calleePre)) ++ ['r'])) ++
       ('e' :: 't' :: calleePost)⟩
    hM hrefs htr ?hlook1 f ?hbound
  case hlook1 =>
    rw [hstore1]
    rw [mapStore_append mpre mpost n _ _ hnot]
    exact mapLookup_append mpre mpost n _ hnot
  case hbound =>
    simp only [List.length_cons, List.length_append]
    omega
  rw [hfinal]
  rw [hstore1]
  rw [mapStore_append mpre mpost n _ _ hnot]
  have hretstr : str "ret" = 'r' :: 'e' :: 't' :: [] := rfl
  simp [hretstr, List.append_assoc]

/-- C4: in the linker pass, resolving a call of a reachable callee `n`
whose entry still holds its sentinel-form body `calleePre ++ \`\\`\` ++
calleePost`: if the reference count is exactly 1, a fresh caller-resume
label `jumpLabel(j+1)` is allocated, the callee is finalized with
return assembly `jmp jumpLabel(j+1)` (its `\` sentinel becomes that
jump — no `call` and no `ret` is emitted for it), and the text
substituted for the `/n/` placeholder is
`jmp calleeLabel\njumpLabel(j+1):`; if the reference count is greater
than 1, the substituted text is `call calleeLabel` and the callee is
finalized with return assembly `ret`.  (`resolveSentinels` splices the
returned text in place of the `/NAME/` placeholder.) -/
theorem c4_unique_callsite_inlined_multi_uses_call :
    ∀ (j njd : Nat) (ds : String)
      (mpre mpost : List (String × compiledFunction)) (n : String) (refs : Nat)
      (calleePre calleePost : List Char),
      (∀ p ∈ mpre, p.1 ≠ n) →
      n ≠ "main" →
      cleanSeg calleePre → cleanSeg calleePost →
      cleanSeg (str ("jumpLabel" ++ toString (j + 1))) →
      cleanSeg (str ("jumpLabel" ++ toString (j + 2))) →
      (refs = 1 →
        ∀ f, calleePre.length + calleePost.length +
            (str ("jumpLabel" ++ toString (j + 1))).length +
            (str ("jumpLabel" ++ toString (j + 2))).length + 16 ≤ f →
          getAssemblyForFunctionCall f
            ⟨j, njd, ds,
             mpre ++ (n, ⟨refs, "", calleePre ++ backslashChar :: calleePost⟩) ::
               mpost⟩ n =
          some (⟨j + 2, njd, ds,
              mpre ++ (n, ⟨refs, "jumpLabel" ++ toString (j + 2),
                '\n' :: str ("jumpLabel" ++ toString (j + 2)) ++ ':' :: calleePre ++
                  str ("jmp " ++ ("jumpLabel" ++ toString (j + 1))) ++
                  calleePost⟩) :: mpost⟩,
            "jmp " ++ ("jumpLabel" ++ toString (j + 2)) ++ "\n" ++
              ("jumpLabel" ++ toString (j + 1)) ++ ":")) ∧
      (2 ≤ refs →
        ∀ f, calleePre.length + calleePost.length +
            (str ("jumpLabel" ++ toString (j + 1))).length + 16 ≤ f →
          getAssemblyForFunctionCall f
            ⟨j, njd, ds,
             mpre ++ (n, ⟨refs, "", calleePre ++ backslashChar :: calleePost⟩) ::
               mpost⟩ n =
          some (⟨j + 1, njd, ds,
              mpre ++ (n, ⟨refs, "jumpLabel" ++ toString (j + 1),
                '\n' :: str ("jumpLabel" ++ toString (j + 1)) ++ ':' :: calleePre ++
                  str "ret" ++ calleePost⟩) :: mpost⟩,
            "call " ++ ("jumpLabel" ++ toString (j + 1)))) := by
  intro j njd ds mpre mpost n refs calleePre calleePost hnot hmain hcpre hcpost hcl1 hcl2
  constructor
  · intro h1
    subst h1
    exact getAssemblyForFunctionCall_uniqueReference j njd ds mpre mpost n
      calleePre calleePost hnot hmain hcpre hcpost hcl1 hcl2
  · intro h2
    exact getAssemblyForFunctionCall_multiReference j njd ds mpre mpost n refs
      calleePre calleePost hnot hmain h2 hcpre hcpost hcl1

/-- Witness for C4: a concrete two-entry map whose callee `f` has one
reference; its placeholder code is the inline `jmp`/resume-label pair
and `f` is finalized with `jmp jumpLabel1`. -/
theorem c4_unique_callsite_inlined_multi_uses_call_witness :
    getAssemblyForFunctionCall 100
      ⟨0, 0, "",
       [("main", ⟨1, "", []⟩),
        ("f", ⟨1, "", str "\nA" ++ backslashChar :: str "B"⟩)]⟩ "f" =
    some (⟨2, 0, "",
        [("main", ⟨1, "", []⟩),
         ("f", ⟨1, "jumpLabel" ++ toString (0 + 2),
           '\n' :: str ("jumpLabel" ++ toString (0 + 2)) ++ ':' :: str "\nA" ++
             str ("jmp " ++ ("jumpLabel" ++ toString (0 + 1))) ++ str "B"⟩)]⟩,
      "jmp " ++ ("jumpLabel" ++ toString (0 + 2)) ++ "\n" ++
        ("jumpLabel" ++ toString (0 + 1)) ++ ":") :=
  (c4_unique_callsite_inlined_multi_uses_call 0 0 "" [("main", ⟨1, "", []⟩)] []
    "f" 1 (str "\nA") (str "B") (by decide) (by decide) (by decide) (by decide)
    (by decide) (by decide)).1 rfl 100 (by decide)



/-- C2: the spec claims register indices 0–15 map to `%rax`, `%rbx`,
`%rcx`, `%rdx`, `%rsi`, `%rdi`, `%r8`–`%r15`, `%rsp`, `%rbp`.  The code
agrees on indices 0–14 but maps index 15 to the 32-bit mnemonic
`%ebp`, not `%rbp`, so the stated mapping (and hence the stated
bijection onto those 16 mnemonics) fails at index 15. -/
theorem c2_register_table_emits_ebp_at_15 :
    ((List.range 16).map
      (fun n => commonAssemblyRegisterToX86Register (Int.ofNat n))) =
      [some "%rax", some "%rbx", some "%rcx", some "%rdx", some "%rsi",
       some "%rdi", some "%r8", some "%r9", some "%r10", some "%r11",
       some "%r12", some "%r13", some "%r14", some "%r15", some "%rsp",
       some "%ebp"] ∧
    commonAssemblyRegisterToX86Register 15 ≠ some "%rbp" := by
  constructor
  · rfl
  · decide

set_option maxRecDepth 10000

/-- C3: the lexer's own doc comment (and the spec) promise that the
concatenated keyword contents equal the input minus the ignorable
whitespace outside string/character literals.  On the input `"a\n"`
the lexer returns from inside the `\n` case without appending the
final `Newline` keyword, so the concatenation is `"a"` while the
input minus ignorable whitespace is `"a\n"`: the promise fails on a
source that lexes without any error. -/
theorem c3_concat_drops_final_newline :
    concatContents (lexCode (str "a\n")).1 = str "a" ∧
    (lexCode (str "a\n")).2 = [] ∧
    removeIgnorableWhitespace (str "a\n") = str "a\n" ∧
    concatContents (lexCode (str "a\n")).1 ≠
      removeIgnorableWhitespace (str "a\n") := by
  refine ⟨by decide, by decide, by decide, by decide⟩

/-- C10: the lexer's nesting depth is a `uint8` decremented on every
`)`, `}` or `]` before the keyword is emitted and with no lower-bound
check, so a closing bracket met at depth 0 is emitted as a
`DecreaseNesting` keyword whose nesting field is 255 (wraparound
modulo 2^8) and adds no lexical error; concretely, lexing `")\n"`
yields exactly that keyword and an empty error list. -/
theorem c10_unmatched_close_wraps_to_255 :
    (∀ (t : textAndPosition) (nesting : Nat),
      (currentByte t = ')' ∨ currentByte t = '}' ∨ currentByte t = ']') →
      nesting = 0 →
      lexDispatch t nesting =
        ⟨(moveForward t).2, 255,
         some ⟨[currentByte t], .DecreaseNesting, 255, t.location⟩, [], false⟩) ∧
    lexCode (str ")\n") =
      ([⟨[')'], keywordType.DecreaseNesting, 255, ⟨1, 1⟩⟩], []) := by
  constructor
  · intro t nesting h hn
    subst hn
    unfold lexDispatch
    rcases h with h | h | h <;> simp only [h] <;> simp
  · decide

/-- C1: `compileAssembly` concatenates the finalized bodies by ranging
over the Go map `state.compiledFunctions`, whose iteration order the
Go language leaves unspecified (and the runtime randomizes).  For a
source whose `main` calls one sibling function, the finalized map has
two entries whose assemblies differ, so two iteration orders of the
same map yield outputs that are not byte-identical: the concatenation
is not deterministic as the claim states. -/
theorem c1_concatenation_depends_on_map_order :
    transformFunctionDefinitionIntoValidAssembly 100 c1StartState "main"
      (str "mov $60, %rax\nmov $0, %rdi\nsyscall") = some c1LinkedState ∧
    c1LinkedState.compiledFunctions.map Prod.fst = ["main", "f"] ∧
    (["f", "main"] : List String).Perm
      (c1LinkedState.compiledFunctions.map Prod.fst) ∧
    concatCompiledOutput c1LinkedState ["main", "f"] ≠
      concatCompiledOutput c1LinkedState ["f", "main"] := by
  refine ⟨by decide, by decide, by decide, by decide⟩

/-- C8: running the linker pass on a function whose jump label is
already non-empty returns the state unchanged — every function's jump
label, reference count and assembly (and the jump counter and data
section) are exactly as before, so finalization is idempotent. -/
theorem c8_finalization_is_noop_on_finalized :
    ∀ (fuel : Nat) (st : compilerState) (name : String) (fd : compiledFunction)
      (retAsm : List Char),
      mapLookup st.compiledFunctions name = some fd →
      fd.jumpLabel ≠ "" →
      transformFunctionDefinitionIntoValidAssembly (fuel + 1) st name retAsm =
        some st := by
  intro fuel st name fd retAsm h hl
  unfold transformFunctionDefinitionIntoValidAssembly
  rw [h]
  simp [hl]

/-- Witness for C8: re-finalizing the already-finalized `main` entry
of the linked state of C1 changes nothing. -/
theorem c8_finalization_is_noop_on_finalized_witness :
    transformFunctionDefinitionIntoValidAssembly 1 c1LinkedState "main"
      (str "ret") = some c1LinkedState :=
  c8_finalization_is_noop_on_finalized 0 c1LinkedState "main"
    ⟨1, "_start",
     str "\n_start:\nmov $1, %rdi\njmp jumpLabel2\njumpLabel1:\nmov $60, %rax\nmov $0, %rdi\nsyscall"⟩
    (str "ret") (by decide) (by decide)

/-- Witness for C10: the step property applied at the concrete cursor
sitting on the unmatched `)` of the input `")"` at depth 0. -/
theorem c10_unmatched_close_wraps_to_255_witness :
    lexDispatch ⟨str ")", 0, ⟨1, 1⟩⟩ 0 =
      ⟨(moveForward ⟨str ")", 0, ⟨1, 1⟩⟩).2, 255,
       some ⟨[currentByte ⟨str ")", 0, ⟨1, 1⟩⟩], .DecreaseNesting, 255, ⟨1, 1⟩⟩,
       [], false⟩ :=
  c10_unmatched_close_wraps_to_255.1 ⟨str ")", 0, ⟨1, 1⟩⟩ 0 (Or.inl (by decide)) rfl

/-- The search loop of `getRegisterFromVariableName` finds an index
whenever some register holds the variable name. -/
theorem findRegisterIdx_some_of_mem :
    ∀ (l : List individualRegisterState) (v : String),
      (∃ e ∈ l, e.variableName = v) → ∃ i, findRegisterIdx l v = some i := by
  intro l v
  induction l with
  | nil => rintro ⟨e, he, _⟩; simp at he
  | cons r rest ih =>
    rintro ⟨e, he, hv⟩
    rw [List.mem_cons] at he
    unfold findRegisterIdx
    by_cases hr : r.variableName = v
    · exact ⟨0, by simp [hr]⟩
    · rcases he with he | he
      · subst he; exact absurd hv hr
      · obtain ⟨i, hi⟩ := ih ⟨e, he, hv⟩
        exact ⟨i + 1, by simp [hr, hi]⟩

/-- What the search loop's found index points at. -/
theorem findRegisterIdx_spec :
    ∀ (l : List individualRegisterState) (v : String) (i : Nat),
      findRegisterIdx l v = some i →
      ∃ e, l.get? i = some e ∧ e.variableName = v ∧ e ∈ l := by
  intro l v
  induction l with
  | nil => intro i h; simp [findRegisterIdx] at h
  | cons r rest ih =>
    intro i h
    unfold findRegisterIdx at h
    by_cases hr : r.variableName = v
    · simp [hr] at h
      subst h
      exact ⟨r, rfl, hr, by simp⟩
    · simp [hr] at h
      obtain ⟨j, hj, hji⟩ := h
      obtain ⟨e, he, hev, hem⟩ := ih j hj
      subst hji
      exact ⟨e, by simpa using he, hev, by simp [hem]⟩

/-- Every bound register of an inner-scope register state carries the
lock-against-drop flag. -/
theorem innerScope_stop :
    ∀ (rs : registerState) (e : individualRegisterState),
      e ∈ (parseRegisterStatesToInnerScope rs).registers →
      e.variableName ≠ "" → e.stopVariableFromBeingDropped = true := by
  intro rs e he hn
  unfold parseRegisterStatesToInnerScope at he
  simp only [List.mem_map] at he
  obtain ⟨x, _, hx⟩ := he
  by_cases hxe : x.variableName = ""
  · rw [if_neg (by simp [hxe])] at hx
    subst hx
    exact absurd hxe hn
  · rw [if_pos (by simpa using hxe)] at hx
    subst hx
    rfl

/-- Entering an inner scope preserves which variable names are
bound. -/
theorem innerScope_mem_name :
    ∀ (rs : registerState) (v : String),
      (∃ e ∈ rs.registers, e.variableName = v) →
      ∃ e ∈ (parseRegisterStatesToInnerScope rs).registers, e.variableName = v := by
  intro rs v hex
  obtain ⟨e, he, hv⟩ := hex
  unfold parseRegisterStatesToInnerScope
  by_cases hn : e.variableName = ""
  · refine ⟨e, ?_, hv⟩
    simp only [List.mem_map]
    exact ⟨e, he, by rw [if_neg (by simp [hn])]⟩
  · refine ⟨⟨e.variableName, true, e.variableNameWasDefinedAt,
      e.registerWasDefinedAsMutableAt⟩, ?_, hv⟩
    simp only [List.mem_map]
    exact ⟨e, he, by rw [if_pos (by simpa using hn)]⟩

/-- The inner-scope copy of a bound register keeps its binding and
gains the lock flag. -/
theorem regGet_innerScope_locks :
    ∀ (rs : registerState) (r : Register) (entry : individualRegisterState),
      regGet rs r = some entry → entry.variableName ≠ "" →
      regGet (parseRegisterStatesToInnerScope rs) r =
        some ⟨entry.variableName, true, entry.variableNameWasDefinedAt,
          entry.registerWasDefinedAsMutableAt⟩ := by
  intro rs r entry h hname
  unfold regGet at h ⊢
  by_cases hc : 0 ≤ r ∧ r.toNat < rs.registers.length
  · rw [if_pos hc] at h
    have hlen : (parseRegisterStatesToInnerScope rs).registers.length =
        rs.registers.length := by
      unfold parseRegisterStatesToInnerScope
      simp
    rw [if_pos (by rw [hlen]; exact hc)]
    unfold parseRegisterStatesToInnerScope
    simp only [List.get?_map, h, Option.map_some']
    rw [if_pos (by simpa using hname)]
  · rw [if_neg hc] at h
    cases h

/-- Dropping a variable that was bound when the inner scope was
entered is rejected, and the register state is left unchanged. -/
theorem innerScope_drop_rejected :
    ∀ (rs : registerState) (v : String) (loc : textLocation),
      v ≠ "" →
      (∃ e ∈ rs.registers, e.variableName = v) →
      getRegisterFromVariableName (parseRegisterStatesToInnerScope rs) v true loc =
        some (parseRegisterStatesToInnerScope rs, UnknownRegister,
          ⟨some ("You cannot drop the `" ++ v ++
             "` variable in this scope since the variable is declared outside this scope"),
           loc⟩) := by
  intro rs v loc hv hex
  obtain ⟨i, hfind⟩ := findRegisterIdx_some_of_mem _ v (innerScope_mem_name rs v hex)
  obtain ⟨e, hget, hev, hem⟩ := findRegisterIdx_spec _ v i hfind
  have hstop := innerScope_stop rs e hem (by rw [hev]; exact hv)
  have hlen : i < (parseRegisterStatesToInnerScope rs).registers.length := by
    rcases List.get?_eq_some.mp hget with ⟨h, _⟩
    exact h
  have htn : (Int.ofNat i).toNat = i := Int.toNat_ofNat i
  have hscrut : regGet (parseRegisterStatesToInnerScope rs) (Int.ofNat i) = some e := by
    unfold regGet
    rw [if_pos ⟨Int.ofNat_nonneg i, by rw [htn]; exact hlen⟩, htn, hget]
  unfold getRegisterFromVariableName
  rw [if_neg hv]
  simp only [hfind]
  rw [hscrut]
  simp [hstop]

/-- The while-loop case of the block compiler: the loop body is
compiled under the locked inner-scope copy, and the register state
handed to the statements after the loop is the one produced by the
condition lowering on the outer state — the body's final register
state (`rsBody`, unconstrained here) is discarded. -/
theorem whileLoop_body_state_discarded :
    ∀ (fuel : Nat) (st : compilerState) (loc : textLocation) (cond : condition)
      (body rest : List statement) (rs : registerState)
      (siblingFunctions : List (String × functionDefinition))
      (cfk : assemblyForControlFlowKeywords) (acc : String)
      (st₁ : compilerState) (rsBody : registerState) (bodyAsm : String)
      (st₂ : compilerState) (rs₂ : registerState) (condAsm : String)
      (err : codeParsingError),
      compileBlockToAssembly fuel
          (createNewJumpLabel (createNewJumpLabel (createNewJumpLabel st).1).1).1
          body (parseRegisterStatesToInnerScope rs) siblingFunctions
          ⟨"\njmp " ++ (createNewJumpLabel (createNewJumpLabel st).1).2,
           "\njmp " ++
             (createNewJumpLabel (createNewJumpLabel (createNewJumpLabel st).1).1).2⟩ =
        some (st₁, rsBody, bodyAsm, []) →
      conditionToAssembly fuel st₁ rs cond (createNewJumpLabel st).2 "" =
        some (st₂, rs₂, condAsm, err) →
      err.msg = none →
      compileBlockLoop (fuel + 1) st (.whileLoop loc cond body :: rest) rs
          siblingFunctions cfk acc =
        compileBlockLoop fuel st₂ rest rs₂ siblingFunctions cfk
          ((acc ++ "\njmp " ++ (createNewJumpLabel (createNewJumpLabel st).1).2 ++
              "\n" ++ (createNewJumpLabel st).2 ++ ":" ++
              bodyAsm ++ "\n" ++ (createNewJumpLabel (createNewJumpLabel st).1).2 ++
              ":") ++
            condAsm ++ "\n" ++
            (createNewJumpLabel (createNewJumpLabel (createNewJumpLabel st).1).1).2 ++
            ":") := by
  intro fuel st loc cond body rest rs siblingFunctions cfk acc st₁ rsBody bodyAsm
    st₂ rs₂ condAsm err hbody hcond herr
  simp only [compileBlockLoop]
  rw [hbody]
  simp only [ne_eq, not_true_eq_false, not_false_eq_true, reduceIte,
    List.cons_ne_self, if_false, ite_false, if_true, ite_true]
  rw [hcond]
  simp [herr]


/-- Counterexample for C6: on a comparison of two integer immediates,
condition lowering emits no assembly and returns an error — but the
error message is "Comparisons must have at least 1 variable name or
pointer to memory in them", not the claim's quoted "Comparisons must
have at least 1 variable name or pointer to memory". -/
theorem c6_message_counterexample :
    conditionToAssembly 1 ⟨0, 0, "", []⟩ ⟨List.replicate 16 emptyRegister, []⟩
        (.comparison ⟨3, 5⟩ .Equal (.uintValue ⟨3, 5⟩ 1) (.uintValue ⟨3, 7⟩ 2))
        "L1" "" =
      some (⟨0, 0, "", []⟩, ⟨List.replicate 16 emptyRegister, []⟩, "",
        ⟨some "Comparisons must have at least 1 variable name or pointer to memory in them", ⟨3, 5⟩⟩) ∧
    ("Comparisons must have at least 1 variable name or pointer to memory in them" : String) ≠
      "Comparisons must have at least 1 variable name or pointer to memory" := by
  refine ⟨by decide, by decide⟩

/-- C6 (amended): when neither operand of a comparison is a variable,
condition lowering returns the error "Comparisons must have at least 1
variable name or pointer to memory in them" and emits no assembly;
when only the right operand is a non-variable value, the lowering
equals that of the comparison with the operands swapped and the
comparator direction flipped (`<` with `>`, `<=` with `>=`). -/
theorem c6_comparison_operand_check_and_swap :
    (∀ (fuel : Nat) (st : compilerState) (regState : registerState)
       (loc : textLocation) (op : comparisonOperation) (l r : rawValue)
       (jumpToOnTrue jumpToOnFalse : String),
       ¬(jumpToOnTrue = "" ∧ jumpToOnFalse = "") →
       isValidLastOperandForMoveAndCmpInstructions l = false →
       isValidLastOperandForMoveAndCmpInstructions r = false →
       conditionToAssembly (fuel + 1) st regState (.comparison loc op l r)
           jumpToOnTrue jumpToOnFalse =
         some (st, regState, "",
           ⟨some "Comparisons must have at least 1 variable name or pointer to memory in them",
            loc⟩)) ∧
    (∀ (fuel : Nat) (st : compilerState) (regState : registerState)
       (loc : textLocation) (op : comparisonOperation) (l r : rawValue)
       (jumpToOnTrue jumpToOnFalse : String),
       ¬(jumpToOnTrue = "" ∧ jumpToOnFalse = "") →
       isValidLastOperandForMoveAndCmpInstructions l = true →
       isValidLastOperandForMoveAndCmpInstructions r = false →
       conditionToAssembly (fuel + 1) st regState (.comparison loc op l r)
           jumpToOnTrue jumpToOnFalse =
       conditionToAssembly (fuel + 1) st regState
           (.comparison loc (flipComparisonOperator op) r l)
           jumpToOnTrue jumpToOnFalse) := by
  constructor
  · intro fuel st regState loc op l r jt jf hjt hl hr
    unfold conditionToAssembly
    rw [if_neg hjt]
    simp only [hl, hr, Bool.not_false, Bool.not_true, if_false, ite_false,
      if_true, ite_true, Bool.false_eq_true, reduceIte]
  · intro fuel st regState loc op l r jt jf hjt hl hr
    unfold conditionToAssembly
    rw [if_neg hjt, if_neg hjt]
    simp only [hl, hr, Bool.not_false, Bool.not_true, if_false, ite_false,
      if_true, ite_true, Bool.false_eq_true, reduceIte]

/-- Witness for C6: the first conjunct applied to `1 == 2`. -/
theorem c6_comparison_operand_check_and_swap_witness :
    conditionToAssembly 1 ⟨0, 0, "", []⟩ ⟨List.replicate 16 emptyRegister, []⟩
        (.comparison ⟨3, 5⟩ .Equal (.uintValue ⟨3, 5⟩ 1) (.uintValue ⟨3, 7⟩ 2))
        "L1" "" =
      some (⟨0, 0, "", []⟩, ⟨List.replicate 16 emptyRegister, []⟩, "",
        ⟨some "Comparisons must have at least 1 variable name or pointer to memory in them", ⟨3, 5⟩⟩) :=
  c6_comparison_operand_check_and_swap.1 0 ⟨0, 0, "", []⟩
    ⟨List.replicate 16 emptyRegister, []⟩ ⟨3, 5⟩ .Equal (.uintValue ⟨3, 5⟩ 1)
    (.uintValue ⟨3, 7⟩ 2) "L1" "" (by decide) (by decide) (by decide)

/-- C9: whenever a function's (parseable) body compiles to the empty
assembly string with no errors — for example the empty body `{}` —
`compileFunctionDefinition` fails its internal
`assert(notEq(assembly, ""))` and panics (`none`) instead of returning
an error list: the assertion is not valid for all parseable inputs. -/
theorem c9_empty_body_fails_nonempty_assembly_assert :
    ∀ (fuel : Nat) (st : compilerState) (function : functionDefinition)
      (siblingFunctions : List (String × functionDefinition))
      (regState : registerState) (st₂ : compilerState) (rs₂ : registerState),
      function.name ≠ "" →
      parseFunctionDefinitionRegisters function.mutatedRegisters
          function.arguments = some (regState, []) →
      compileBlockToAssembly fuel
          ⟨st.numberOfJumps, st.numberOfItemsInDataSection, st.dataSection,
           mapStore st.compiledFunctions function.name ⟨0, "", []⟩⟩
          function.body regState siblingFunctions ⟨"", ""⟩ =
        some (st₂, rs₂, "", []) →
      compileFunctionDefinition (fuel + 1) st function siblingFunctions = none := by
  intro fuel st function siblingFunctions regState st₂ rs₂ hname hparse hblock
  unfold compileFunctionDefinition
  rw [if_neg hname]
  simp only [hparse]
  simp only [ne_eq, not_true_eq_false, not_false_eq_true, reduceIte, if_false,
    ite_false, if_true, ite_true]
  rw [hblock]
  simp

/-- Witness for C9: compiling `fn r0 = main() {}` (empty body)
panics. -/
theorem c9_empty_body_fails_nonempty_assembly_assert_witness :
    compileFunctionDefinition 3 ⟨0, 0, "", []⟩
      ⟨⟨1, 1⟩, "main", [], [⟨⟨1, 4⟩, 0, ""⟩], []⟩ [] = none :=
  c9_empty_body_fails_nonempty_assembly_assert 2 ⟨0, 0, "", []⟩ ⟨⟨1, 1⟩, "main", [], [⟨⟨1, 4⟩, 0, ""⟩], []⟩ []
    ⟨List.set (List.replicate 16 emptyRegister) 0 ⟨"", false, ⟨0, 0⟩, ⟨1, 4⟩⟩, []⟩
    ⟨0, 0, "", mapStore [] "main" ⟨0, "", []⟩⟩
    ⟨List.set (List.replicate 16 emptyRegister) 0 ⟨"", false, ⟨0, 0⟩, ⟨1, 4⟩⟩, []⟩
    (by decide) (by decide) (by decide)

/-- C7: entering an inner scope (`parseRegisterStatesToInnerScope`)
locks every bound register — the copy keeps the binding and sets
`variableCannotBeDroppedInThisScope` — so (1) `regGet` on the inner
scope returns the locked copy of any bound register, (2) dropping such
a variable inside the scope is rejected with the error
"You cannot drop the ... variable in this scope since the variable is
declared outside this scope" and leaves the register state unchanged,
and (3) a `while` loop compiles its body under the locked inner-scope
copy and discards the body's final register state: compilation after
the loop resumes from the state produced by the condition lowering on
the outer register state. -/
theorem c7_inner_scope_locks_and_while_discards :
    (∀ (rs : registerState) (r : Register) (entry : individualRegisterState),
      regGet rs r = some entry → entry.variableName ≠ "" →
      regGet (parseRegisterStatesToInnerScope rs) r =
        some ⟨entry.variableName, true, entry.variableNameWasDefinedAt,
          entry.registerWasDefinedAsMutableAt⟩) ∧
    (∀ (rs : registerState) (v : String) (loc : textLocation),
      v ≠ "" →
      (∃ e ∈ rs.registers, e.variableName = v) →
      getRegisterFromVariableName (parseRegisterStatesToInnerScope rs) v true loc =
        some (parseRegisterStatesToInnerScope rs, UnknownRegister,
          ⟨some ("You cannot drop the `" ++ v ++
             "` variable in this scope since the variable is declared outside this scope"),
           loc⟩)) ∧
    (∀ (fuel : Nat) (st : compilerState) (loc : textLocation) (cond : condition)
      (body rest : List statement) (rs : registerState)
      (siblingFunctions : List (String × functionDefinition))
      (cfk : assemblyForControlFlowKeywords) (acc : String)
      (st₁ : compilerState) (rsBody : registerState) (bodyAsm : String)
      (st₂ : compilerState) (rs₂ : registerState) (condAsm : String)
      (err : codeParsingError),
      compileBlockToAssembly fuel
          (createNewJumpLabel (createNewJumpLabel (createNewJumpLabel st).1).1).1
          body (parseRegisterStatesToInnerScope rs) siblingFunctions
          ⟨"\njmp " ++ (createNewJumpLabel (createNewJumpLabel st).1).2,
           "\njmp " ++
             (createNewJumpLabel (createNewJumpLabel (createNewJumpLabel st).1).1).2⟩ =
        some (st₁, rsBody, bodyAsm, []) →
      conditionToAssembly fuel st₁ rs cond (createNewJumpLabel st).2 "" =
        some (st₂, rs₂, condAsm, err) →
      err.msg = none →
      compileBlockLoop (fuel + 1) st (.whileLoop loc cond body :: rest) rs
          siblingFunctions cfk acc =
        compileBlockLoop fuel st₂ rest rs₂ siblingFunctions cfk
          ((acc ++ "\njmp " ++ (createNewJumpLabel (createNewJumpLabel st).1).2 ++
              "\n" ++ (createNewJumpLabel st).2 ++ ":" ++
              bodyAsm ++ "\n" ++ (createNewJumpLabel (createNewJumpLabel st).1).2 ++
              ":") ++
            condAsm ++ "\n" ++
            (createNewJumpLabel (createNewJumpLabel (createNewJumpLabel st).1).1).2 ++
            ":")) :=
  ⟨regGet_innerScope_locks, innerScope_drop_rejected, whileLoop_body_state_discarded⟩

/-- Witness for C7: the three conjuncts at a register state binding
`x` in register 0, and at a `while true {}` loop. -/
theorem c7_inner_scope_locks_and_while_discards_witness :
    regGet (parseRegisterStatesToInnerScope exampleBoundState) 0 =
      some ⟨"x", true, ⟨1, 5⟩, ⟨1, 1⟩⟩ ∧
    getRegisterFromVariableName (parseRegisterStatesToInnerScope exampleBoundState)
        "x" true ⟨2, 3⟩ =
      some (parseRegisterStatesToInnerScope exampleBoundState, UnknownRegister,
        ⟨some ("You cannot drop the `" ++ "x" ++
           "` variable in this scope since the variable is declared outside this scope"),
         ⟨2, 3⟩⟩) ∧
    compileBlockLoop 3 ⟨0, 0, "", []⟩
        [.whileLoop ⟨1, 1⟩ (.booleanValue ⟨1, 1⟩ true) []] exampleBoundState []
        ⟨"", ""⟩ "" =
      compileBlockLoop 2 ⟨3, 0, "", []⟩ [] exampleBoundState [] ⟨"", ""⟩
        "\njmp jumpLabel2\njumpLabel1:\njumpLabel2:\njmp jumpLabel1\njumpLabel3:" := by
  refine ⟨?_, ?_, ?_⟩
  · exact c7_inner_scope_locks_and_while_discards.1 exampleBoundState 0
      ⟨"x", false, ⟨1, 5⟩, ⟨1, 1⟩⟩ (by decide) (by decide)
  · exact c7_inner_scope_locks_and_while_discards.2.1 exampleBoundState "x" ⟨2, 3⟩
      (by decide) ⟨⟨"x", false, ⟨1, 5⟩, ⟨1, 1⟩⟩, List.mem_cons_self _ _, rfl⟩
  · have h := c7_inner_scope_locks_and_while_discards.2.2 2 ⟨0, 0, "", []⟩ ⟨1, 1⟩
      (.booleanValue ⟨1, 1⟩ true) [] [] exampleBoundState [] ⟨"", ""⟩ ""
      ⟨3, 0, "", []⟩ (parseRegisterStatesToInnerScope exampleBoundState) ""
      ⟨3, 0, "", []⟩ exampleBoundState "\njmp jumpLabel1" noError
      (by decide) (by decide) rfl
    exact h


theorem getAppAt (pre suf : List keyword) (k : Nat) :
    (pre ++ suf).get? (pre.length + k) = suf.get? k := by
  rw [List.get?_append_right (by omega)]
  congr 1
  omega

theorem mkChain_get0 (pairs : List (keyword × keyword)) (b : keyword) :
    (mkChain b pairs).get? 0 = some b := by
  rcases pairs with _ | ⟨⟨c, d⟩, r⟩ <;> rfl

theorem mkChain_length (pairs : List (keyword × keyword)) :
    ∀ b : keyword, (mkChain b pairs).length = 2 * pairs.length + 1 := by
  induction pairs with
  | nil => intro b; rfl
  | cons p r ih =>
    intro b
    rcases p with ⟨c, d⟩
    simp only [mkChain, List.length_cons, ih d]
    omega

theorem parseRawValue_name (L : List keyword) (i : Nat) (k : keyword)
    (hget : L.get? i = some k) (hk : k.keywordType = .Name) :
    parseRawValue ⟨i, L⟩ =
      some (⟨i, L⟩, some (.variableValue k.location ⟨k.contents⟩ false 0),
        noError) := by
  have hlen : 0 < L.length := by
    rcases List.get?_eq_some.mp hget with ⟨h, _⟩
    omega
  have hget2 : L[i]? = some k := by simpa using hget
  unfold parseRawValue listIterator.get
  simp only [List.get?_eq_getElem?, hget2, hk]
  unfold parseVariableValue listIterator.get
  simp only [List.get?_eq_getElem?, hget2]
  unfold parseVariableValueLoop
  simp [listIterator.get, hget2, hk]

theorem parseComparisonLoop_step (fuel : Nat) (pre : List keyword)
    (a c b : keyword) (pairs : List (keyword × keyword)) (ct : Nat)
    (acc : List condition) (kwl : List keyword)
    (ha : a.keywordType = .Name) (hc : c.keywordType = .ComparisonSyntax)
    (hb : b.keywordType = .Name) :
    parseComparisonLoop (fuel + 1) ⟨pre.length, pre ++ a :: c :: mkChain b pairs⟩
        ct acc kwl =
      match checkComparisonType ct c with
      | none => none
      | some (.inl e) =>
        some (⟨pre.length + 1, pre ++ a :: c :: mkChain b pairs⟩, none, e)
      | some (.inr ct₂) =>
        parseComparisonLoop fuel ⟨pre.length + 2, pre ++ a :: c :: mkChain b pairs⟩
          ct₂
          (acc ++ [.comparison c.location (comparisonOpOfContents c.contents)
            (.variableValue a.location ⟨a.contents⟩ false 0)
            (.variableValue b.location ⟨b.contents⟩ false 0)])
          kwl := by
  have hM : 1 ≤ (mkChain b pairs).length := by
    rw [mkChain_length]
    omega
  have hL : (pre ++ a :: c :: mkChain b pairs).length =
      pre.length + (mkChain b pairs).length + 2 := by
    simp
    omega
  have hgetA : (pre ++ a :: c :: mkChain b pairs).get? pre.length = some a := by
    have := getAppAt pre (a :: c :: mkChain b pairs) 0
    simpa using this
  have hgetC : (pre ++ a :: c :: mkChain b pairs).get? (pre.length + 1) = some c := by
    have := getAppAt pre (a :: c :: mkChain b pairs) 1
    simpa using this
  have hgetB : (pre ++ a :: c :: mkChain b pairs).get? (pre.length + 2) = some b := by
    have h2 := getAppAt pre (a :: c :: mkChain b pairs) 2
    have h0 := mkChain_get0 pairs b
    simp only [List.get?] at h2 ⊢
    rw [h2]
    simpa using h0
  rw [parseComparisonLoop.eq_def]
  simp only []
  rw [parseRawValue_name _ _ _ hgetA ha]
  simp only [noError, ne_eq, not_true_eq_false, reduceIte, ite_false, if_false]
  have hnext1 : listIterator.next ⟨pre.length, pre ++ a :: c :: mkChain b pairs⟩ =
      (⟨pre.length + 1, pre ++ a :: c :: mkChain b pairs⟩, true) := by
    unfold listIterator.next
    rw [if_pos (by simp only [hL]; omega)]
  rw [hnext1]
  simp only [Bool.true_eq_false, reduceIte, ite_false, if_false]
  have hgc : listIterator.get ⟨pre.length + 1, pre ++ a :: c :: mkChain b pairs⟩ =
      some c := by
    simpa [listIterator.get] using hgetC
  rw [hgc]
  simp only [hc, ne_eq, not_true_eq_false, reduceIte, ite_false, if_false]
  rcases hck : checkComparisonType ct c with - | e | ct₂
  all_goals simp only [hck]
  have hnext2 : listIterator.next ⟨pre.length + 1, pre ++ a :: c :: mkChain b pairs⟩ =
      (⟨pre.length + 2, pre ++ a :: c :: mkChain b pairs⟩, true) := by
    unfold listIterator.next
    rw [if_pos (by simp only [hL]; omega)]
  have hgb : listIterator.get ⟨pre.length + 2, pre ++ a :: c :: mkChain b pairs⟩ =
      some b := by
    simpa [listIterator.get] using hgetB
  unfold nextNonEmpty nextNonEmptyLoop
  simp only [hnext2, reduceIte, ite_true, if_true]
  simp only [hgb, hb]
  simp only [ne_eq, reduceCtorEq, not_false_eq_true, and_self, reduceIte, ite_true]
  rw [parseRawValue_name _ _ _ hgetB hb]
  simp [noError, hb]

theorem parseComparisonLoop_end (fuel : Nat) (pre : List keyword) (a : keyword)
    (ct : Nat) (acc : List condition) (kwl : List keyword) (k₀ : keyword)
    (hk : kwl.head? = some k₀)
    (ha : a.keywordType = .Name) (hpre : pre ≠ []) :
    parseComparisonLoop (fuel + 1) ⟨pre.length, pre ++ [a]⟩ ct acc kwl =
      some (⟨pre.length, pre ++ [a]⟩, chainResult k₀ acc, noError) := by
  obtain ⟨krest, rfl⟩ : ∃ kr, kwl = k₀ :: kr := by
    rcases kwl with - | ⟨x, xs⟩
    · cases hk
    · exact ⟨xs, by simp at hk; rw [hk]⟩
  have hgetA : (pre ++ [a]).get? pre.length = some a := by
    have h0 := getAppAt pre [a] 0
    rw [Nat.add_zero] at h0
    exact h0
  have hnext : listIterator.next ⟨pre.length, pre ++ [a]⟩ =
      (⟨pre.length, pre ++ [a]⟩, false) := by
    unfold listIterator.next
    rw [if_neg (by simp)]
  have hidx : pre.length ≠ 0 := by
    have := List.length_pos.mpr hpre
    omega
  rw [parseComparisonLoop.eq_def]
  simp only []
  rw [parseRawValue_name _ _ _ hgetA ha]
  simp only [noError, ne_eq, not_true_eq_false, reduceIte, ite_false, if_false]
  simp only [hnext, reduceIte, ite_true, if_true, hidx]
  rcases acc with - | ⟨c, - | ⟨d, r⟩⟩ <;> simp [chainResult, hidx]

theorem parseComparisonLoop_run (t : Char) :
    ∀ (pairs : List (keyword × keyword)) (fuel : Nat) (pre : List keyword)
      (a : keyword) (acc : List condition) (kwl : List keyword) (k₀ : keyword),
      kwl.head? = some k₀ →
      pairs.length + 1 ≤ fuel →
      pre ≠ [] →
      a.keywordType = .Name →
      (∀ p ∈ pairs, p.1.keywordType = .ComparisonSyntax ∧
        p.2.keywordType = .Name ∧ p.1.contents.head? = some t) →
      t.toNat ≠ 0 →
      (pairs = [] ∨ t.toNat ≠ 33) →
      ∃ it, parseComparisonLoop fuel ⟨pre.length, pre ++ mkChain a pairs⟩ t.toNat
          acc kwl =
        some (it, chainResult k₀ (acc ++ pairwiseComparisons a pairs), noError) := by
  intro pairs
  induction pairs with
  | nil =>
    intro fuel pre a acc kwl k₀ hk hfuel hpre ha _ _ _
    obtain ⟨f, rfl⟩ : ∃ f, fuel = f + 1 := ⟨fuel - 1, by omega⟩
    refine ⟨⟨pre.length, pre ++ [a]⟩, ?_⟩
    rw [show mkChain a [] = [a] from rfl,
      parseComparisonLoop_end f pre a t.toNat acc kwl k₀ hk ha hpre]
    simp [pairwiseComparisons]
  | cons p rest ih =>
    intro fuel pre a acc kwl k₀ hk hfuel hpre ha hpairs ht0 hOr
    rcases p with ⟨c, b⟩
    obtain ⟨hcT, hbT, hcH⟩ := hpairs (c, b) (List.mem_cons_self _ _)
    obtain ⟨f, rfl⟩ : ∃ f, fuel = f + 1 := ⟨fuel - 1, by omega⟩
    have ht33 : t.toNat ≠ 33 := by
      rcases hOr with h | h
      · cases h
      · exact h
    have hck : checkComparisonType t.toNat c = some (.inr t.toNat) := by
      rcases hcc : c.contents with - | ⟨c0, cs⟩
      · rw [hcc] at hcH
        cases hcH
      · have hc0 : c0 = t := by
          rw [hcc] at hcH
          simpa using hcH
        unfold checkComparisonType
        rw [hcc, hc0]
        simp only []
        rw [if_neg ht0, if_neg (by simp), if_neg ht33]
    rw [show mkChain a ((c, b) :: rest) = a :: c :: mkChain b rest from rfl,
      parseComparisonLoop_step f pre a c b rest t.toNat acc kwl ha hcT hbT]
    simp only [hck]
    have hlen2 : pre.length + 2 = (pre ++ [a, c]).length := by
      simp
    have happ : pre ++ a :: c :: mkChain b rest = (pre ++ [a, c]) ++ mkChain b rest := by
      simp
    rw [hlen2, happ]
    obtain ⟨it, hit⟩ := ih f (pre ++ [a, c]) b
      (acc ++ [.comparison c.location (comparisonOpOfContents c.contents)
        (.variableValue a.location ⟨a.contents⟩ false 0)
        (.variableValue b.location ⟨b.contents⟩ false 0)])
      kwl k₀ hk (by simpa using Nat.le_of_succ_le_succ hfuel) (by simp) hbT
      (fun q hq => hpairs q (List.mem_cons_of_mem _ hq)) ht0 (Or.inr ht33)
    refine ⟨it, ?_⟩
    rw [hit]
    simp [pairwiseComparisons]

theorem checkComparisonType_first (c : keyword) (t : Char)
    (h : c.contents.head? = some t)
    (ht : t = Char.ofNat 61 ∨ t = Char.ofNat 33 ∨ t = Char.ofNat 60 ∨
      t = Char.ofNat 62) :
    checkComparisonType 0 c = some (.inr t.toNat) := by
  rcases hcc : c.contents with - | ⟨c0, cs⟩
  · rw [hcc] at h
    cases h
  · have hc0 : c0 = t := by
      rw [hcc] at h
      simpa using h
    unfold checkComparisonType
    rw [hcc, hc0]
    simp only [reduceIte, ite_true, if_true]
    rw [if_pos]
    rcases ht with h | h | h | h <;> rw [h] <;> decide

theorem pairwiseComparisons_length (pairs : List (keyword × keyword)) :
    ∀ a : keyword, (pairwiseComparisons a pairs).length = pairs.length := by
  induction pairs with
  | nil => intro a; rfl
  | cons p r ih =>
    intro a
    rcases p with ⟨c, d⟩
    simp [pairwiseComparisons, ih d]

theorem parseComparisonLoop_mismatch (t u : Char) (hne : u.toNat ≠ t.toNat)
    (ht0 : t.toNat ≠ 0) :
    ∀ (good : List (keyword × keyword)) (fuel : Nat) (pre : List keyword)
      (a bad bo : keyword) (more : List (keyword × keyword))
      (acc : List condition) (kwl : List keyword),
      good.length + 1 ≤ fuel →
      a.keywordType = .Name →
      (∀ p ∈ good, p.1.keywordType = .ComparisonSyntax ∧
        p.2.keywordType = .Name ∧ p.1.contents.head? = some t) →
      (good = [] ∨ t.toNat ≠ 33) →
      bad.keywordType = .ComparisonSyntax →
      bo.keywordType = .Name →
      bad.contents.head? = some u →
      ∃ it, parseComparisonLoop fuel
          ⟨pre.length, pre ++ mkChain a (good ++ (bad, bo) :: more)⟩ t.toNat
          acc kwl =
        some (it, none,
          ⟨some "Expecting comparisons in greatness chain to match", bad.location⟩) := by
  intro good
  induction good with
  | nil =>
    intro fuel pre a bad bo more acc kwl hfuel ha _ _ hbadT hboT hbadH
    obtain ⟨f, rfl⟩ : ∃ f, fuel = f + 1 := ⟨fuel - 1, by omega⟩
    have hck : checkComparisonType t.toNat bad =
        some (.inl ⟨some "Expecting comparisons in greatness chain to match",
          bad.location⟩) := by
      rcases hcc : bad.contents with - | ⟨c0, cs⟩
      · rw [hcc] at hbadH
        cases hbadH
      · have hc0 : c0 = u := by
          rw [hcc] at hbadH
          simpa using hbadH
        unfold checkComparisonType
        rw [hcc, hc0]
        simp only []
        rw [if_neg ht0, if_pos (by omega)]
    rw [show ([] : List (keyword × keyword)) ++ (bad, bo) :: more =
        (bad, bo) :: more from rfl,
      show mkChain a ((bad, bo) :: more) = a :: bad :: mkChain bo more from rfl,
      parseComparisonLoop_step f pre a bad bo more t.toNat acc kwl ha hbadT hboT]
    simp only [hck]
    exact ⟨_, rfl⟩
  | cons p rest ih =>
    intro fuel pre a bad bo more acc kwl hfuel ha hpairs hOr hbadT hboT hbadH
    rcases p with ⟨c, b⟩
    obtain ⟨hcT, hbT, hcH⟩ := hpairs (c, b) (List.mem_cons_self _ _)
    obtain ⟨f, rfl⟩ : ∃ f, fuel = f + 1 := ⟨fuel - 1, by omega⟩
    have ht33 : t.toNat ≠ 33 := by
      rcases hOr with h | h
      · cases h
      · exact h
    have hck : checkComparisonType t.toNat c = some (.inr t.toNat) := by
      rcases hcc : c.contents with - | ⟨c0, cs⟩
      · rw [hcc] at hcH
        cases hcH
      · have hc0 : c0 = t := by
          rw [hcc] at hcH
          simpa using hcH
        unfold checkComparisonType
        rw [hcc, hc0]
        simp only []
        rw [if_neg ht0, if_neg (by simp), if_neg ht33]
    rw [show ((c, b) :: rest) ++ (bad, bo) :: more =
        (c, b) :: (rest ++ (bad, bo) :: more) from rfl,
      show mkChain a ((c, b) :: (rest ++ (bad, bo) :: more)) =
        a :: c :: mkChain b (rest ++ (bad, bo) :: more) from rfl,
      parseComparisonLoop_step f pre a c b (rest ++ (bad, bo) :: more) t.toNat
        acc kwl ha hcT hbT]
    simp only [hck]
    have hlen2 : pre.length + 2 = (pre ++ [a, c]).length := by
      simp
    have happ : pre ++ a :: c :: mkChain b (rest ++ (bad, bo) :: more) =
        (pre ++ [a, c]) ++ mkChain b (rest ++ (bad, bo) :: more) := by
      simp
    rw [hlen2, happ]
    exact ih f (pre ++ [a, c]) b bad bo more _ kwl
      (by simp at hfuel ⊢; omega) hbT
      (fun q hq => hpairs q (List.mem_cons_of_mem _ hq)) (Or.inr ht33)
      hbadT hboT hbadH

theorem parseComparisonLoop_first (fuel : Nat) (a c b : keyword)
    (pairs : List (keyword × keyword)) (ct : Nat) (acc : List condition)
    (kwl : List keyword) (ha : a.keywordType = .Name)
    (hc : c.keywordType = .ComparisonSyntax) (hb : b.keywordType = .Name) :
    parseComparisonLoop (fuel + 1) ⟨0, a :: c :: mkChain b pairs⟩ ct acc kwl =
      match checkComparisonType ct c with
      | none => none
      | some (.inl e) => some (⟨1, a :: c :: mkChain b pairs⟩, none, e)
      | some (.inr ct₂) =>
        parseComparisonLoop fuel ⟨2, a :: c :: mkChain b pairs⟩ ct₂
          (acc ++ [.comparison c.location (comparisonOpOfContents c.contents)
            (.variableValue a.location ⟨a.contents⟩ false 0)
            (.variableValue b.location ⟨b.contents⟩ false 0)])
          kwl := by
  have h := parseComparisonLoop_step fuel [] a c b pairs ct acc kwl ha hc hb
  simpa using h

theorem parseComparison_single (a c₁ b₁ : keyword) (t : Char)
    (ha : a.keywordType = .Name) (hc : c₁.keywordType = .ComparisonSyntax)
    (hb : b₁.keywordType = .Name) (hH : c₁.contents.head? = some t)
    (ht : t = Char.ofNat 61 ∨ t = Char.ofNat 33 ∨ t = Char.ofNat 60 ∨
      t = Char.ofNat 62) :
    parseComparison (mkChain a [(c₁, b₁)]) =
      some (some (.comparison c₁.location (comparisonOpOfContents c₁.contents)
        (.variableValue a.location ⟨a.contents⟩ false 0)
        (.variableValue b₁.location ⟨b₁.contents⟩ false 0)), noError) := by
  have hck := checkComparisonType_first c₁ t hH ht
  have ht0 : t.toNat ≠ 0 := by
    rcases ht with h | h | h | h <;> rw [h] <;> decide
  unfold parseComparison
  rw [show mkChain a [(c₁, b₁)] = a :: c₁ :: mkChain b₁ [] from rfl]
  rw [if_neg (by simp)]
  rw [show (a :: c₁ :: mkChain b₁ []).length + 1 =
    (c₁ :: mkChain b₁ []).length + 1 + 1 from rfl]
  rw [parseComparisonLoop_first _ a c₁ b₁ [] 0 [] _ ha hc hb]
  simp only [hck, List.nil_append]
  rw [show (2 : Nat) = ([a, c₁] : List keyword).length from rfl,
    show a :: c₁ :: mkChain b₁ [] = [a, c₁] ++ mkChain b₁ [] from rfl]
  obtain ⟨it, hit⟩ := parseComparisonLoop_run t [] ((c₁ :: mkChain b₁ []).length + 1)
    [a, c₁] b₁
    [.comparison c₁.location (comparisonOpOfContents c₁.contents)
      (.variableValue a.location ⟨a.contents⟩ false 0)
      (.variableValue b₁.location ⟨b₁.contents⟩ false 0)]
    ([a, c₁] ++ mkChain b₁ []) a (by simp) (by simp) (by simp) hb
    (by intro q hq; cases hq) ht0 (Or.inl rfl)
  rw [hit]
  simp [chainResult, pairwiseComparisons]

theorem parseComparison_chainAnd (a c₁ b₁ c₂ b₂ : keyword)
    (rs : List (keyword × keyword)) (t : Char)
    (ha : a.keywordType = .Name)
    (hpairs : ∀ p ∈ (c₁, b₁) :: (c₂, b₂) :: rs,
      p.1.keywordType = .ComparisonSyntax ∧ p.2.keywordType = .Name ∧
        p.1.contents.head? = some t)
    (ht : t = Char.ofNat 61 ∨ t = Char.ofNat 60 ∨ t = Char.ofNat 62) :
    parseComparison (mkChain a ((c₁, b₁) :: (c₂, b₂) :: rs)) =
      some (some (.boolean a.location true
        (pairwiseComparisons a ((c₁, b₁) :: (c₂, b₂) :: rs))), noError) := by
  obtain ⟨hcT, hbT, hcH⟩ := hpairs (c₁, b₁) (List.mem_cons_self _ _)
  have hck := checkComparisonType_first c₁ t hcH
    (by rcases ht with h | h | h
        · exact Or.inl h
        · exact Or.inr (Or.inr (Or.inl h))
        · exact Or.inr (Or.inr (Or.inr h)))
  have ht0 : t.toNat ≠ 0 := by
    rcases ht with h | h | h <;> rw [h] <;> decide
  have ht33 : t.toNat ≠ 33 := by
    rcases ht with h | h | h <;> rw [h] <;> decide
  unfold parseComparison
  rw [show mkChain a ((c₁, b₁) :: (c₂, b₂) :: rs) =
    a :: c₁ :: mkChain b₁ ((c₂, b₂) :: rs) from rfl]
  rw [if_neg (by simp)]
  rw [show (a :: c₁ :: mkChain b₁ ((c₂, b₂) :: rs)).length + 1 =
    (c₁ :: mkChain b₁ ((c₂, b₂) :: rs)).length + 1 + 1 from rfl]
  rw [parseComparisonLoop_first _ a c₁ b₁ ((c₂, b₂) :: rs) 0 [] _ ha hcT hbT]
  simp only [hck, List.nil_append]
  rw [show (2 : Nat) = ([a, c₁] : List keyword).length from rfl,
    show a :: c₁ :: mkChain b₁ ((c₂, b₂) :: rs) =
      [a, c₁] ++ mkChain b₁ ((c₂, b₂) :: rs) from rfl]
  obtain ⟨it, hit⟩ := parseComparisonLoop_run t ((c₂, b₂) :: rs)
    ((c₁ :: mkChain b₁ ((c₂, b₂) :: rs)).length + 1) [a, c₁] b₁
    [.comparison c₁.location (comparisonOpOfContents c₁.contents)
      (.variableValue a.location ⟨a.contents⟩ false 0)
      (.variableValue b₁.location ⟨b₁.contents⟩ false 0)]
    ([a, c₁] ++ mkChain b₁ ((c₂, b₂) :: rs)) a (by simp)
    (by simp [mkChain_length]; omega) (by simp) hbT
    (fun q hq => hpairs q (List.mem_cons_of_mem _ hq)) ht0 (Or.inr ht33)
  rw [hit]
  simp [chainResult, pairwiseComparisons]

theorem parseComparison_mismatchError (a c₁ b₁ : keyword)
    (mid : List (keyword × keyword)) (bad bo : keyword)
    (more : List (keyword × keyword)) (t u : Char)
    (ha : a.keywordType = .Name)
    (hgood : ∀ p ∈ (c₁, b₁) :: mid, p.1.keywordType = .ComparisonSyntax ∧
      p.2.keywordType = .Name ∧ p.1.contents.head? = some t)
    (ht : t = Char.ofNat 61 ∨ t = Char.ofNat 33 ∨ t = Char.ofNat 60 ∨
      t = Char.ofNat 62)
    (hmid : t = Char.ofNat 33 → mid = [])
    (hbadT : bad.keywordType = .ComparisonSyntax) (hboT : bo.keywordType = .Name)
    (hbadH : bad.contents.head? = some u) (hne : u.toNat ≠ t.toNat) :
    parseComparison (mkChain a (((c₁, b₁) :: mid) ++ (bad, bo) :: more)) =
      some (none,
        ⟨some "Expecting comparisons in greatness chain to match", bad.location⟩) := by
  obtain ⟨hcT, hbT, hcH⟩ := hgood (c₁, b₁) (List.mem_cons_self _ _)
  have hck := checkComparisonType_first c₁ t hcH ht
  have ht0 : t.toNat ≠ 0 := by
    rcases ht with h | h | h | h <;> rw [h] <;> decide
  have hOr : mid = [] ∨ t.toNat ≠ 33 := by
    rcases ht with h | h | h | h
    · exact Or.inr (by rw [h]; decide)
    · exact Or.inl (hmid h)
    · exact Or.inr (by rw [h]; decide)
    · exact Or.inr (by rw [h]; decide)
  unfold parseComparison
  rw [show mkChain a (((c₁, b₁) :: mid) ++ (bad, bo) :: more) =
    a :: c₁ :: mkChain b₁ (mid ++ (bad, bo) :: more) from rfl]
  rw [if_neg (by simp)]
  rw [show (a :: c₁ :: mkChain b₁ (mid ++ (bad, bo) :: more)).length + 1 =
    (c₁ :: mkChain b₁ (mid ++ (bad, bo) :: more)).length + 1 + 1 from rfl]
  rw [parseComparisonLoop_first _ a c₁ b₁ (mid ++ (bad, bo) :: more) 0 [] _
    ha hcT hbT]
  simp only [hck, List.nil_append]
  rw [show (2 : Nat) = ([a, c₁] : List keyword).length from rfl,
    show a :: c₁ :: mkChain b₁ (mid ++ (bad, bo) :: more) =
      [a, c₁] ++ mkChain b₁ (mid ++ (bad, bo) :: more) from rfl]
  obtain ⟨it, hit⟩ := parseComparisonLoop_mismatch t u hne ht0 mid
    ((c₁ :: mkChain b₁ (mid ++ (bad, bo) :: more)).length + 1) [a, c₁] b₁ bad bo
    more
    [.comparison c₁.location (comparisonOpOfContents c₁.contents)
      (.variableValue a.location ⟨a.contents⟩ false 0)
      (.variableValue b₁.location ⟨b₁.contents⟩ false 0)]
    ([a, c₁] ++ mkChain b₁ (mid ++ (bad, bo) :: more))
    (by simp [mkChain_length]; omega) hbT
    (fun q hq => hgood q (List.mem_cons_of_mem _ hq)) hOr hbadT hboT hbadH
  rw [hit]

theorem parseComparison_chainBangError (a c₁ b₁ c₂ b₂ : keyword)
    (more : List (keyword × keyword)) (u w : Char)
    (ha : a.keywordType = .Name) (hc₁T : c₁.keywordType = .ComparisonSyntax)
    (hb₁T : b₁.keywordType = .Name) (hc₂T : c₂.keywordType = .ComparisonSyntax)
    (hb₂T : b₂.keywordType = .Name)
    (h1 : c₁.contents.head? = some u) (hu : u = Char.ofNat 33)
    (h2 : c₂.contents.head? = some w) (hw : w = Char.ofNat 33) :
    parseComparison (mkChain a ((c₁, b₁) :: (c₂, b₂) :: more)) =
      some (none, ⟨some "You cannot chain comparisons of type !", c₂.location⟩) := by
  subst hu
  subst hw
  have hck := checkComparisonType_first c₁ (Char.ofNat 33) h1 (Or.inr (Or.inl rfl))
  have hck2 : checkComparisonType (Char.ofNat 33).toNat c₂ =
      some (.inl ⟨some "You cannot chain comparisons of type !", c₂.location⟩) := by
    rcases hcc : c₂.contents with - | ⟨c0, cs⟩
    · rw [hcc] at h2
      cases h2
    · have hc0 : c0 = Char.ofNat 33 := by
        rw [hcc] at h2
        simpa using h2
      unfold checkComparisonType
      rw [hcc, hc0]
      simp only []
      rw [if_neg (by decide), if_neg (by simp), if_pos (by decide)]
  unfold parseComparison
  rw [show mkChain a ((c₁, b₁) :: (c₂, b₂) :: more) =
    a :: c₁ :: mkChain b₁ ((c₂, b₂) :: more) from rfl]
  rw [if_neg (by simp)]
  rw [show (a :: c₁ :: mkChain b₁ ((c₂, b₂) :: more)).length + 1 =
    (c₁ :: mkChain b₁ ((c₂, b₂) :: more)).length + 1 + 1 from rfl]
  rw [parseComparisonLoop_first _ a c₁ b₁ ((c₂, b₂) :: more) 0 [] _ ha hc₁T hb₁T]
  simp only [hck, List.nil_append]
  rw [show (2 : Nat) = ([a, c₁] : List keyword).length from rfl,
    show a :: c₁ :: mkChain b₁ ((c₂, b₂) :: more) =
      [a, c₁] ++ b₁ :: c₂ :: mkChain b₂ more from rfl]
  rw [show (c₁ :: mkChain b₁ ((c₂, b₂) :: more)).length + 1 =
    (mkChain b₁ ((c₂, b₂) :: more)).length + 1 + 1 from rfl]
  rw [parseComparisonLoop_step _ [a, c₁] b₁ c₂ b₂ more ((Char.ofNat 33).toNat) _ _
    hb₁T hc₂T hb₂T]
  simp only [hck2]

/-- C5: for a chained comparison `a cmp b cmp c ...` handed to
`parseComparison` (operands `Name` keywords, comparators
`ComparisonSyntax` keywords): a chain of length one is returned as the
single `comparison` node of its comparator, for any comparator first
byte `=`, `!`, `<` or `>` (code points 61, 33, 60, 62); a longer chain
whose comparators all share the first byte `=`, `<` or `>` is returned
as `boolean` with `isAndInsteadOfOr = true` over the pairwise
comparisons of adjacent operands (each middle operand is shared by two
comparisons); a comparator whose first byte differs from the first
comparator's is rejected with "Expecting comparisons in greatness
chain to match"; and a second comparator starting with `!` after a
first `!`-comparator is rejected with "You cannot chain comparisons of
type !". -/
theorem c5_comparison_chain_characterization :
    (∀ (a c₁ b₁ : keyword) (t : Char),
      a.keywordType = .Name → c₁.keywordType = .ComparisonSyntax →
      b₁.keywordType = .Name → c₁.contents.head? = some t →
      (t = Char.ofNat 61 ∨ t = Char.ofNat 33 ∨ t = Char.ofNat 60 ∨
        t = Char.ofNat 62) →
      parseComparison (mkChain a [(c₁, b₁)]) =
        some (some (.comparison c₁.location (comparisonOpOfContents c₁.contents)
          (.variableValue a.location ⟨a.contents⟩ false 0)
          (.variableValue b₁.location ⟨b₁.contents⟩ false 0)), noError)) ∧
    (∀ (a c₁ b₁ c₂ b₂ : keyword) (rs : List (keyword × keyword)) (t : Char),
      a.keywordType = .Name →
      (∀ p ∈ (c₁, b₁) :: (c₂, b₂) :: rs,
        p.1.keywordType = .ComparisonSyntax ∧ p.2.keywordType = .Name ∧
          p.1.contents.head? = some t) →
      (t = Char.ofNat 61 ∨ t = Char.ofNat 60 ∨ t = Char.ofNat 62) →
      parseComparison (mkChain a ((c₁, b₁) :: (c₂, b₂) :: rs)) =
        some (some (.boolean a.location true
          (pairwiseComparisons a ((c₁, b₁) :: (c₂, b₂) :: rs))), noError)) ∧
    (∀ (a c₁ b₁ : keyword) (mid : List (keyword × keyword)) (bad bo : keyword)
        (more : List (keyword × keyword)) (t u : Char),
      a.keywordType = .Name →
      (∀ p ∈ (c₁, b₁) :: mid, p.1.keywordType = .ComparisonSyntax ∧
        p.2.keywordType = .Name ∧ p.1.contents.head? = some t) →
      (t = Char.ofNat 61 ∨ t = Char.ofNat 33 ∨ t = Char.ofNat 60 ∨
        t = Char.ofNat 62) →
      (t = Char.ofNat 33 → mid = []) →
      bad.keywordType = .ComparisonSyntax → bo.keywordType = .Name →
      bad.contents.head? = some u → u.toNat ≠ t.toNat →
      parseComparison (mkChain a (((c₁, b₁) :: mid) ++ (bad, bo) :: more)) =
        some (none,
          ⟨some "Expecting comparisons in greatness chain to match",
           bad.location⟩)) ∧
    (∀ (a c₁ b₁ c₂ b₂ : keyword) (more : List (keyword × keyword)) (u w : Char),
      a.keywordType = .Name → c₁.keywordType = .ComparisonSyntax →
      b₁.keywordType = .Name → c₂.keywordType = .ComparisonSyntax →
      b₂.keywordType = .Name →
      c₁.contents.head? = some u → u = Char.ofNat 33 →
      c₂.contents.head? = some w → w = Char.ofNat 33 →
      parseComparison (mkChain a ((c₁, b₁) :: (c₂, b₂) :: more)) =
        some (none,
          ⟨some "You cannot chain comparisons of type !", c₂.location⟩)) :=
  ⟨parseComparison_single, parseComparison_chainAnd, parseComparison_mismatchError,
   parseComparison_chainBangError⟩

/-- Witness for C5: `a < b` parses to a single comparison;
`a < b <= c` to `boolean(isAnd = true)` of the two pairwise
comparisons sharing `b`; `a < b > c` to the chain-mismatch error; and
`a != b != c` to the chained-`!` error. -/
theorem c5_comparison_chain_characterization_witness :
    parseComparison [⟨str "a", .Name, 0, ⟨1, 1⟩⟩,
        ⟨str "<", .ComparisonSyntax, 0, ⟨1, 3⟩⟩, ⟨str "b", .Name, 0, ⟨1, 5⟩⟩] =
      some (some (.comparison ⟨1, 3⟩ .LessThan
        (.variableValue ⟨1, 1⟩ "a" false 0) (.variableValue ⟨1, 5⟩ "b" false 0)),
        noError) ∧
    parseComparison [⟨str "a", .Name, 0, ⟨1, 1⟩⟩,
        ⟨str "<", .ComparisonSyntax, 0, ⟨1, 3⟩⟩, ⟨str "b", .Name, 0, ⟨1, 5⟩⟩,
        ⟨str "<=", .ComparisonSyntax, 0, ⟨1, 7⟩⟩,
        ⟨str "c", .Name, 0, ⟨1, 10⟩⟩] =
      some (some (.boolean ⟨1, 1⟩ true
        [.comparison ⟨1, 3⟩ .LessThan (.variableValue ⟨1, 1⟩ "a" false 0)
          (.variableValue ⟨1, 5⟩ "b" false 0),
         .comparison ⟨1, 7⟩ .LessThanOrEqual (.variableValue ⟨1, 5⟩ "b" false 0)
          (.variableValue ⟨1, 10⟩ "c" false 0)]), noError) ∧
    parseComparison [⟨str "a", .Name, 0, ⟨1, 1⟩⟩,
        ⟨str "<", .ComparisonSyntax, 0, ⟨1, 3⟩⟩, ⟨str "b", .Name, 0, ⟨1, 5⟩⟩,
        ⟨str ">", .ComparisonSyntax, 0, ⟨1, 7⟩⟩, ⟨str "c", .Name, 0, ⟨1, 9⟩⟩] =
      some (none,
        ⟨some "Expecting comparisons in greatness chain to match", ⟨1, 7⟩⟩) ∧
    parseComparison [⟨str "a", .Name, 0, ⟨1, 1⟩⟩,
        ⟨str "!=", .ComparisonSyntax, 0, ⟨1, 3⟩⟩, ⟨str "b", .Name, 0, ⟨1, 6⟩⟩,
        ⟨str "!=", .ComparisonSyntax, 0, ⟨1, 8⟩⟩,
        ⟨str "c", .Name, 0, ⟨1, 11⟩⟩] =
      some (none, ⟨some "You cannot chain comparisons of type !", ⟨1, 8⟩⟩) := by
  refine ⟨?_, ?_, ?_, ?_⟩
  · exact c5_comparison_chain_characterization.1
      ⟨str "a", .Name, 0, ⟨1, 1⟩⟩ ⟨str "<", .ComparisonSyntax, 0, ⟨1, 3⟩⟩
      ⟨str "b", .Name, 0, ⟨1, 5⟩⟩ (Char.ofNat 60) rfl rfl rfl (by decide)
      (Or.inr (Or.inr (Or.inl rfl)))
  · exact c5_comparison_chain_characterization.2.1
      ⟨str "a", .Name, 0, ⟨1, 1⟩⟩ ⟨str "<", .ComparisonSyntax, 0, ⟨1, 3⟩⟩
      ⟨str "b", .Name, 0, ⟨1, 5⟩⟩ ⟨str "<=", .ComparisonSyntax, 0, ⟨1, 7⟩⟩
      ⟨str "c", .Name, 0, ⟨1, 10⟩⟩ [] (Char.ofNat 60) rfl (by decide)
      (Or.inr (Or.inl rfl))
  · exact c5_comparison_chain_characterization.2.2.1
      ⟨str "a", .Name, 0, ⟨1, 1⟩⟩ ⟨str "<", .ComparisonSyntax, 0, ⟨1, 3⟩⟩
      ⟨str "b", .Name, 0, ⟨1, 5⟩⟩ [] ⟨str ">", .ComparisonSyntax, 0, ⟨1, 7⟩⟩
      ⟨str "c", .Name, 0, ⟨1, 9⟩⟩ [] (Char.ofNat 60) (Char.ofNat 62) rfl
      (by decide) (Or.inr (Or.inr (Or.inl rfl))) (fun h => by cases h) rfl rfl
      (by decide) (by decide)
  · exact c5_comparison_chain_characterization.2.2.2
      ⟨str "a", .Name, 0, ⟨1, 1⟩⟩ ⟨str "!=", .ComparisonSyntax, 0, ⟨1, 3⟩⟩
      ⟨str "b", .Name, 0, ⟨1, 6⟩⟩ ⟨str "!=", .ComparisonSyntax, 0, ⟨1, 8⟩⟩
      ⟨str "c", .Name, 0, ⟨1, 11⟩⟩ [] (Char.ofNat 33) (Char.ofNat 33) rfl rfl
      rfl rfl rfl (by decide) rfl (by decide) rfl

end CommonAsm
